import Mathlib

/-!
Shallow embedding of the HiddenHand poker rules engine
(src/programs/hiddenhand/src/state/hand_eval.rs, state/hand.rs, state/player.rs,
instructions/player_action.rs, instructions/timeout_player.rs, instructions/showdown.rs)
together with proofs about the spec's claims.

Machine integers (u8/u64/u128) are modelled as `Nat`; Rust `saturating_sub` on
unsigned integers coincides with truncated `Nat` subtraction, and `saturating_add`
is modelled by `satAdd` (clamping at `U64MAX`).  Anchor account plumbing (PDA
derivation, ownership checks, duplicate-account detection) is an identity-layer
concern: handlers here receive the already-validated state records, and a failed
instruction is an `Except.error` that carries no state, matching the Solana
runtime's rollback of every account write in a failed transaction.
-/

namespace HiddenHand

/-- Rust `a.cmp(&b)` on unsigned integers. -/
def cmpNat (a b : Nat) : Ordering :=
  if a < b then .lt else if b < a then .gt else .eq

/-- Hand ranking from highest to lowest (`HandRank`, hand_eval.rs). -/
inductive HandRank where
  | HighCard
  | OnePair
  | TwoPair
  | ThreeOfAKind
  | Straight
  | Flush
  | FullHouse
  | FourOfAKind
  | StraightFlush
  | RoyalFlush
  deriving DecidableEq, Repr

/-- The `repr(u8)` discriminant of `HandRank` (the Rust `as u8` cast). -/
def HandRank.toNat : HandRank → Nat
  | .HighCard => 0
  | .OnePair => 1
  | .TwoPair => 2
  | .ThreeOfAKind => 3
  | .Straight => 4
  | .Flush => 5
  | .FullHouse => 6
  | .FourOfAKind => 7
  | .StraightFlush => 8
  | .RoyalFlush => 9

/-- Evaluated hand with rank and tiebreaker values (`EvaluatedHand`, hand_eval.rs).
The `kickers` array `[u8; 5]` is modelled as a `List Nat` of length 5. -/
structure EvaluatedHand where
  rank : HandRank
  kickers : List Nat
  deriving DecidableEq, Repr

/-- The kicker comparison loop (`for i in 0..5` in `EvaluatedHand::compare`):
lexicographic comparison of the two kicker arrays. -/
def lexCmp : List Nat → List Nat → Ordering
  | x :: xs, y :: ys =>
    match cmpNat x y with
    | .eq => lexCmp xs ys
    | o => o
  | _, _ => .eq

/-- Compare two hands: rank first, then the kickers (`EvaluatedHand::compare`). -/
def EvaluatedHand.compare (h1 h2 : EvaluatedHand) : Ordering :=
  match cmpNat h1.rank.toNat h2.rank.toNat with
  | .eq => lexCmp h1.kickers h2.kickers
  | o => o

/-- Get rank (0-12, where 0=2, 12=Ace) from card value (`get_rank`). -/
def get_rank (card : Nat) : Nat := card % 13

/-- Get suit (0-3) from card value (`get_suit`). -/
def get_suit (card : Nat) : Nat := card / 13

/-- Array indexing `l[i]` for the fixed-size arrays of the source (all in-bounds
at every use site; out-of-bounds defaults to 0). -/
def nth (l : List Nat) (i : Nat) : Nat := (l.get? i).getD 0

/-- Rust `ranks.sort_by(|a, b| b.cmp(a))`: sort descending. -/
def sortDesc (l : List Nat) : List Nat := l.insertionSort (· ≥ ·)

/-- Check if sorted ranks (descending) form a straight (`is_straight_ranks`). -/
def is_straight_ranks (ranks : List Nat) : Bool :=
  match ranks with
  | [a, b, c, d, e] => a == b + 1 && b == c + 1 && c == d + 1 && d == e + 1
  | _ => false

/-- The ranks whose occurrence count in `ranks` equals `c`, collected while
iterating `r` from Ace (12) down to 2 (0) — so listed in descending order
(the `pairs`/`singles` vectors of `evaluate_five_cards`). -/
def ranksWithCount (ranks : List Nat) (c : Nat) : List Nat :=
  ((List.range 13).reverse).filter (fun r => ranks.count r = c)

/-- Classification body of `evaluate_five_cards`: after extracting ranks and
suits, everything depends only on the descending-sorted ranks and the flush
flag.  `quads`/`trips` keep the last write of the source's descending loop
(`getLast?`); `Option.getD 0` models the source's `unwrap`/`unwrap_or(0)`. -/
def classify (ranks : List Nat) (is_flush : Bool) : EvaluatedHand :=
  if is_flush ∧ (is_straight_ranks ranks ∨ ranks = [12, 3, 2, 1, 0]) then
    if ranks = [12, 3, 2, 1, 0] then
      ⟨.StraightFlush, [3, 0, 0, 0, 0]⟩
    else if nth ranks 0 = 12 then
      ⟨.RoyalFlush, [12, 11, 10, 9, 8]⟩
    else
      ⟨.StraightFlush, [nth ranks 0, 0, 0, 0, 0]⟩
  else
    let quads := (ranksWithCount ranks 4).getLast?
    let trips := (ranksWithCount ranks 3).getLast?
    let pairs := ranksWithCount ranks 2
    let singles := ranksWithCount ranks 1
    match quads with
    | some quad_rank =>
      let kicker := ((singles.head?).orElse (fun _ =>
        (pairs.head?).orElse (fun _ => trips))).getD 0
      ⟨.FourOfAKind, [quad_rank, kicker, 0, 0, 0]⟩
    | none =>
      if trips.isSome ∧ pairs ≠ [] then
        ⟨.FullHouse, [trips.getD 0, nth pairs 0, 0, 0, 0]⟩
      else if is_flush then
        ⟨.Flush, [nth ranks 0, nth ranks 1, nth ranks 2, nth ranks 3, nth ranks 4]⟩
      else if is_straight_ranks ranks then
        ⟨.Straight, [nth ranks 0, 0, 0, 0, 0]⟩
      else if ranks = [12, 3, 2, 1, 0] then
        ⟨.Straight, [3, 0, 0, 0, 0]⟩
      else
        match trips with
        | some trip_rank =>
          ⟨.ThreeOfAKind, [trip_rank, nth singles 0, nth singles 1, 0, 0]⟩
        | none =>
          if 2 ≤ pairs.length then
            ⟨.TwoPair, [nth pairs 0, nth pairs 1, nth singles 0, 0, 0]⟩
          else if pairs.length = 1 then
            ⟨.OnePair, [nth pairs 0, nth singles 0, nth singles 1, nth singles 2, 0]⟩
          else
            ⟨.HighCard, [nth ranks 0, nth ranks 1, nth ranks 2, nth ranks 3, nth ranks 4]⟩

/-- Evaluate exactly 5 cards (`evaluate_five_cards`). -/
def evaluate_five_cards (c0 c1 c2 c3 c4 : Nat) : EvaluatedHand :=
  let ranks := sortDesc [get_rank c0, get_rank c1, get_rank c2, get_rank c3, get_rank c4]
  let is_flush := get_suit c0 == get_suit c1 && get_suit c1 == get_suit c2 &&
    get_suit c2 == get_suit c3 && get_suit c3 == get_suit c4
  classify ranks is_flush

/-- The 21 index combinations of the nested loops of `evaluate_hand`, in loop
order: `i in 0..3`, `j in i+1..4`, `k in j+1..5`, `l in k+1..6`, `m in l+1..7`. -/
def combos5 : List (Nat × Nat × Nat × Nat × Nat) :=
  (List.range 3).flatMap fun i =>
    (List.range' (i + 1) (3 - i)).flatMap fun j =>
      (List.range' (j + 1) (4 - j)).flatMap fun k =>
        (List.range' (k + 1) (5 - k)).flatMap fun l =>
          (List.range' (l + 1) (6 - l)).map fun m => (i, j, k, l, m)

/-- The 21 five-card subset evaluations of a 7-card array, in loop order. -/
def subsetEvals (cards : List Nat) : List EvaluatedHand :=
  combos5.map fun c =>
    evaluate_five_cards (nth cards c.1) (nth cards c.2.1) (nth cards c.2.2.1)
      (nth cards c.2.2.2.1) (nth cards c.2.2.2.2)

/-- The running-best accumulation of `evaluate_hand`: keep the new evaluation
exactly when it compares `Greater` to the current best. -/
def bestStep (best : Option EvaluatedHand) (e : EvaluatedHand) : Option EvaluatedHand :=
  match best with
  | none => some e
  | some b => if e.compare b = .gt then some e else some b

/-- The `best_hand` accumulator loop of `evaluate_hand`. -/
def bestOf (l : List EvaluatedHand) : Option EvaluatedHand :=
  l.foldl bestStep none

/-- Evaluate the best 5-card hand from 7 cards (`evaluate_hand`).  The final
`unwrap` is modelled by `getD`; `evaluate_hand_total` (claim C10) proves the
accumulator is always `some`, so the default is never used. -/
def evaluate_hand (cards : List Nat) : EvaluatedHand :=
  (bestOf (subsetEvals cards)).getD ⟨.HighCard, [0, 0, 0, 0, 0]⟩

/-- One step of the `find_winners` loop: running best evaluation plus the
accumulated winner list. -/
def winnersStep (acc : Option EvaluatedHand × List Nat) (pc : Nat × List Nat) :
    Option EvaluatedHand × List Nat :=
  let eval := evaluate_hand pc.2
  match acc.1 with
  | none => (some eval, [pc.1])
  | some best =>
    match eval.compare best with
    | .gt => (some eval, [pc.1])
    | .eq => (acc.1, acc.2 ++ [pc.1])
    | .lt => acc

/-- Find winners from a list of players with their 7 cards (`find_winners`):
returns the seat indices of all players tied for the best hand. -/
def find_winners (player_cards : List (Nat × List Nat)) : List Nat :=
  (player_cards.foldl winnersStep (none, [])).2

/-! State model: state/table.rs, state/hand.rs, state/player.rs.  The u8
bitmasks (`active_players`, `acted_this_round`, `all_in_players`) are `Nat`s
kept below 256; the u8 bitwise NOT `!m` is `255 ^^^ m`. -/

/-- Largest u64 value; saturation point of the chip/pot arithmetic. -/
def U64MAX : Nat := 2 ^ 64 - 1

/-- Rust `u64::saturating_add` (u64 `saturating_sub` is `Nat` subtraction). -/
def satAdd (a b : Nat) : Nat := min (a + b) U64MAX

/-- Action timeout (constants.rs `ACTION_TIMEOUT_SECONDS`). -/
def ACTION_TIMEOUT_SECONDS : Int := 60

/-- Player status (state/player.rs `PlayerStatus`). -/
inductive PlayerStatus where
  | Sitting
  | Playing
  | Folded
  | AllIn
  deriving DecidableEq, Repr

/-- Game phase (state/hand.rs `GamePhase`). -/
inductive GamePhase where
  | Dealing
  | PreFlop
  | Flop
  | Turn
  | River
  | Showdown
  | Settled
  deriving DecidableEq, Repr

/-- Table status (state/table.rs `TableStatus`). -/
inductive TableStatus where
  | Waiting
  | Playing
  | Closed
  deriving DecidableEq, Repr

/-- The Table fields read or written by the handlers modelled here. -/
structure TableS where
  status : TableStatus
  max_players : Nat
  last_ready_time : Int
  deriving DecidableEq, Repr

/-- PlayerSeat (state/player.rs).  The fields `cards_revealed`,
`revealed_card_1` and `revealed_card_2` are used by showdown.rs but absent
from the stale struct in state/player.rs; they are modelled from the spec:
"revealed hole cards (post-showdown, sentinel until revealed)" (§3 Seat). -/
structure PlayerSeat where
  seat_index : Nat
  chips : Nat
  current_bet : Nat
  total_bet_this_hand : Nat
  hole_card_1 : Nat
  hole_card_2 : Nat
  status : PlayerStatus
  has_acted : Bool
  cards_revealed : Bool
  revealed_card_1 : Nat
  revealed_card_2 : Nat
  deriving DecidableEq, Repr

/-- HandState (state/hand.rs).  `awaiting_community_reveal` and
`last_action_time` are used by the instruction handlers but absent from the
stale struct in state/hand.rs (which has `last_action_slot`); they are
modelled from the spec: "last-action timestamp" (§3 Hand) and the §4.2 gate
that betting waits while a community-card tranche is being revealed. -/
structure HandState where
  phase : GamePhase
  pot : Nat
  current_bet : Nat
  min_raise : Nat
  dealer_position : Nat
  action_on : Nat
  community_cards : List Nat
  community_revealed : Nat
  active_players : Nat
  acted_this_round : Nat
  active_count : Nat
  all_in_players : Nat
  awaiting_community_reveal : Bool
  last_action_time : Int
  deriving DecidableEq, Repr

/-- Check if player is still active in hand (`HandState::is_player_active`). -/
def HandState.is_player_active (h : HandState) (seat_index : Nat) : Bool :=
  h.active_players &&& (1 <<< seat_index) != 0

/-- Mark player as folded (`HandState::fold_player`). -/
def HandState.fold_player (h : HandState) (seat_index : Nat) : HandState :=
  { h with active_players := h.active_players &&& (255 ^^^ (1 <<< seat_index)),
           active_count := h.active_count - 1 }

/-- Check if player has acted this betting round (`HandState::has_player_acted`). -/
def HandState.has_player_acted (h : HandState) (seat_index : Nat) : Bool :=
  h.acted_this_round &&& (1 <<< seat_index) != 0

/-- Mark player as having acted (`HandState::mark_acted`). -/
def HandState.mark_acted (h : HandState) (seat_index : Nat) : HandState :=
  { h with acted_this_round := h.acted_this_round ||| (1 <<< seat_index) }

/-- Reset acted flags for new betting round (`HandState::reset_betting_round`). -/
def HandState.reset_betting_round (h : HandState) : HandState :=
  { h with acted_this_round := 0, current_bet := 0 }

/-- Mark player as all-in (`HandState::mark_all_in`). -/
def HandState.mark_all_in (h : HandState) (seat_index : Nat) : HandState :=
  { h with all_in_players := h.all_in_players ||| (1 <<< seat_index) }

/-- Check if player is all-in (`HandState::is_player_all_in`). -/
def HandState.is_player_all_in (h : HandState) (seat_index : Nat) : Bool :=
  h.all_in_players &&& (1 <<< seat_index) != 0

/-- Players who can still bet: active but not all-in (`HandState::players_who_can_bet`). -/
def HandState.players_who_can_bet (h : HandState) : Nat :=
  h.active_players &&& (255 ^^^ h.all_in_players)

/-- Number of set bits of a u8 value (`u8::count_ones`). -/
def popCount8 (n : Nat) : Nat :=
  (List.range 8).countP (fun i => n.testBit i)

/-- Check if any more betting is possible (`HandState::can_anyone_bet`). -/
def HandState.can_anyone_bet (h : HandState) : Bool :=
  2 ≤ popCount8 h.players_who_can_bet

/-- Check if betting round is complete (`HandState::is_betting_complete`). -/
def HandState.is_betting_complete (h : HandState) : Bool :=
  h.players_who_can_bet &&& (255 ^^^ h.acted_this_round) == 0

/-- Scan loop of `HandState::next_active_player`, with the remaining
iteration count of the bounded `for` loop as fuel. -/
def nextActiveGo (h : HandState) (maxp : Nat) : Nat → Nat → Option Nat
  | 0, _ => none
  | fuel + 1, nxt =>
    if h.is_player_active nxt then some nxt
    else nextActiveGo h maxp fuel ((nxt + 1) % maxp)

/-- Find next active player after given seat (`HandState::next_active_player`). -/
def HandState.next_active_player (h : HandState) (after_seat maxp : Nat) : Option Nat :=
  nextActiveGo h maxp maxp ((after_seat + 1) % maxp)

/-- Place a bet; returns the updated seat and the actual amount bet
(`PlayerSeat::place_bet`). -/
def PlayerSeat.place_bet (s : PlayerSeat) (amount : Nat) : PlayerSeat × Nat :=
  let actual_bet := min amount s.chips
  let s1 := { s with chips := s.chips - actual_bet,
                     current_bet := satAdd s.current_bet actual_bet,
                     total_bet_this_hand := satAdd s.total_bet_this_hand actual_bet }
  let s2 := if s1.chips = 0 then { s1 with status := PlayerStatus.AllIn } else s1
  (s2, actual_bet)

/-- Award chips from a won pot (`PlayerSeat::award_chips`). -/
def PlayerSeat.award_chips (s : PlayerSeat) (amount : Nat) : PlayerSeat :=
  { s with chips := satAdd s.chips amount }

/-- Check if player can act (`PlayerSeat::can_act`). -/
def PlayerSeat.can_act (s : PlayerSeat) : Bool :=
  s.status == PlayerStatus.Playing

/-- Fold the hand (`PlayerSeat::fold`). -/
def PlayerSeat.fold (s : PlayerSeat) : PlayerSeat :=
  { s with status := PlayerStatus.Folded }

/-! Instruction handlers.  Each handler is a pure function from the validated
pre-state to `Except`: an `.ok` carries the complete post-state, an `.error`
carries no state at all, mirroring the rollback of a failed Solana
transaction (spec §7: rejections leave no partial state change). -/

/-- Error reasons used by the modelled handlers (error.rs `HiddenHandError`). -/
inductive HiddenHandError where
  | HandNotInProgress
  | InvalidPhase
  | AwaitingCommunityReveal
  | NotPlayersTurn
  | PlayerFolded
  | CannotCheck
  | InvalidAction
  | RaiseTooSmall
  | ActionNotTimedOut
  | UnauthorizedAuthority
  | PlayersNotRevealed
  deriving DecidableEq, Repr

/-- Player actions (instructions/player_action.rs `Action`). -/
inductive Action where
  | Fold
  | Check
  | Call
  | Raise (amount : Nat)
  | AllIn
  deriving DecidableEq, Repr

/-- Scan loop of `find_next_player_who_can_act` (player_action.rs). -/
def findNextGo (h : HandState) (maxp : Nat) : Nat → Nat → Option Nat
  | 0, _ => none
  | fuel + 1, nxt =>
    if h.is_player_active nxt && !(h.is_player_all_in nxt) && !(h.has_player_acted nxt) then
      some nxt
    else findNextGo h maxp fuel ((nxt + 1) % maxp)

/-- Find next player who needs to act: active, not all-in, has not acted this
round (`find_next_player_who_can_act`, player_action.rs). -/
def find_next_player_who_can_act (h : HandState) (after_seat maxp : Nat) : Option Nat :=
  findNextGo h maxp maxp ((after_seat + 1) % maxp)

/-- Phase advance of player_action.rs (`advance_to_next_phase`): community
cards are encrypted, so betting phases only raise the awaiting-reveal flag. -/
def advance_to_next_phase (h : HandState) : HandState :=
  match h.phase with
  | .PreFlop | .Flop | .Turn => { h with awaiting_community_reveal := true }
  | .River => { h with phase := GamePhase.Showdown }
  | _ => h

/-- Run-out signal of player_action.rs (`run_out_to_showdown`). -/
def run_out_to_showdown_action (h : HandState) : HandState :=
  if h.phase = GamePhase.River then { h with phase := GamePhase.Showdown }
  else { h with awaiting_community_reveal := true }

/-- The code after the action `match` of the player_action handler (lines
180-209 of player_action.rs): all-in detection on a drained stack, acted
marking, turn advancement, and phase advance / run-out.  This tail never
fails, so it is a pure function on the post-action hand and seat. -/
def post_action (table : TableS) (hand1 : HandState) (seat1 : PlayerSeat)
    (now : Int) : HandState × PlayerSeat :=
  let hand2 := if seat1.chips = 0 && !(hand1.is_player_all_in seat1.seat_index) then
      hand1.mark_all_in seat1.seat_index
    else hand1
  let hand2 := hand2.mark_acted seat1.seat_index
  let seat2 := { seat1 with has_acted := true }
  let hand2 := { hand2 with last_action_time := now }
  match find_next_player_who_can_act hand2 seat1.seat_index table.max_players with
  | some next_player => ({ hand2 with action_on := next_player }, seat2)
  | none =>
    if hand2.can_anyone_bet then (advance_to_next_phase hand2, seat2)
    else (run_out_to_showdown_action hand2, seat2)

/-- The player_action handler (instructions/player_action.rs `handler`). -/
def player_action (table : TableS) (hand : HandState) (seat : PlayerSeat)
    (act : Action) (now : Int) : Except HiddenHandError (HandState × PlayerSeat) :=
  if table.status ≠ TableStatus.Playing then .error .HandNotInProgress
  else if ¬ (hand.phase = GamePhase.PreFlop ∨ hand.phase = GamePhase.Flop ∨
      hand.phase = GamePhase.Turn ∨ hand.phase = GamePhase.River) then .error .InvalidPhase
  else if hand.awaiting_community_reveal then .error .AwaitingCommunityReveal
  else if hand.action_on ≠ seat.seat_index then .error .NotPlayersTurn
  else if ¬ seat.can_act then .error .PlayerFolded
  else
    let to_call := hand.current_bet - seat.current_bet
    let step : Except HiddenHandError (HandState × PlayerSeat) :=
      match act with
      | .Fold =>
        let seat1 := seat.fold
        let hand1 := hand.fold_player seat.seat_index
        let hand1 := if hand1.active_count = 1 then { hand1 with phase := GamePhase.Settled }
                     else hand1
        .ok (hand1, seat1)
      | .Check =>
        if to_call ≠ 0 then .error .CannotCheck else .ok (hand, seat)
      | .Call =>
        if to_call = 0 then .error .InvalidAction
        else
          let r := seat.place_bet to_call
          .ok ({ hand with pot := satAdd hand.pot r.2 }, r.1)
      | .Raise amount =>
        let total_bet := satAdd seat.current_bet amount
        let raise_amount := total_bet - hand.current_bet
        if raise_amount < hand.min_raise then .error .RaiseTooSmall
        else
          let r := seat.place_bet amount
          let hand1 := { hand with pot := satAdd hand.pot r.2 }
          let new_bet := r.1.current_bet
          let hand1 :=
            if hand1.current_bet < new_bet then
              { hand1 with min_raise := new_bet - hand1.current_bet,
                           current_bet := new_bet, acted_this_round := 0 }
            else hand1
          .ok (hand1, r.1)
      | .AllIn =>
        let all_in_amount := seat.chips
        let r := seat.place_bet all_in_amount
        let hand1 := { hand with pot := satAdd hand.pot r.2 }
        let new_bet := r.1.current_bet
        let hand1 :=
          if hand1.current_bet < new_bet then
            { hand1 with min_raise := new_bet - hand1.current_bet,
                         current_bet := new_bet, acted_this_round := 0 }
          else hand1
        .ok (hand1.mark_all_in seat.seat_index, r.1)
    match step with
    | .error e => .error e
    | .ok hs => .ok (post_action table hs.1 hs.2 now)

/-- The all-in skipping loop of the timeout handler (timeout_player.rs). -/
def skipAllInGo (h : HandState) (maxp : Nat) : Nat → Nat → Nat
  | 0, cur => cur
  | fuel + 1, cur =>
    if !(h.is_player_all_in cur) then cur
    else
      match h.next_active_player cur maxp with
      | some n => skipAllInGo h maxp fuel n
      | none => cur

/-- First scan of `get_first_active_left_of_dealer`: active and not all-in. -/
def firstActiveNotAllInGo (h : HandState) (maxp : Nat) : Nat → Nat → Option Nat
  | 0, _ => none
  | fuel + 1, pos =>
    if h.is_player_active pos && !(h.is_player_all_in pos) then some pos
    else firstActiveNotAllInGo h maxp fuel ((pos + 1) % maxp)

/-- Fallback scan of `get_first_active_left_of_dealer`: any active seat. -/
def firstActiveGo (h : HandState) (maxp : Nat) : Nat → Nat → Option Nat
  | 0, _ => none
  | fuel + 1, pos =>
    if h.is_player_active pos then some pos
    else firstActiveGo h maxp fuel ((pos + 1) % maxp)

/-- Find first active player left of dealer (`get_first_active_left_of_dealer`,
timeout_player.rs). -/
def get_first_active_left_of_dealer (h : HandState) (maxp : Nat) : Nat :=
  match firstActiveNotAllInGo h maxp maxp ((h.dealer_position + 1) % maxp) with
  | some pos => pos
  | none =>
    match firstActiveGo h maxp maxp ((h.dealer_position + 1) % maxp) with
    | some pos => pos
    | none => h.dealer_position

/-- Phase advance with card reveal (`advance_phase_with_cards`,
timeout_player.rs); `deck` is `deck_state.cards`, read as `& 0xFF`. -/
def advance_phase_with_cards (h : HandState) (deck : List Nat) (maxp : Nat) : HandState :=
  let first_to_act := get_first_active_left_of_dealer h maxp
  match h.phase with
  | .PreFlop =>
    let h1 := h.reset_betting_round
    let cc := ((h1.community_cards.set 0 (nth deck 0 % 256)).set 1
      (nth deck 1 % 256)).set 2 (nth deck 2 % 256)
    { h1 with phase := GamePhase.Flop,
              community_cards := cc,
              community_revealed := 3,
              action_on := first_to_act }
  | .Flop =>
    let h1 := h.reset_betting_round
    { h1 with phase := GamePhase.Turn,
              community_cards := h1.community_cards.set 3 (nth deck 3 % 256),
              community_revealed := 4,
              action_on := first_to_act }
  | .Turn =>
    let h1 := h.reset_betting_round
    { h1 with phase := GamePhase.River,
              community_cards := h1.community_cards.set 4 (nth deck 4 % 256),
              community_revealed := 5,
              action_on := first_to_act }
  | .River => { h with phase := GamePhase.Showdown }
  | _ => h

/-- Run out all remaining community cards and advance to Showdown
(`run_out_to_showdown`, timeout_player.rs). -/
def run_out_to_showdown_timeout (h : HandState) (deck : List Nat) : HandState :=
  let h1 :=
    match h.phase with
    | .PreFlop =>
      let cc := ((((h.community_cards.set 0 (nth deck 0 % 256)).set 1
        (nth deck 1 % 256)).set 2 (nth deck 2 % 256)).set 3 (nth deck 3 % 256)).set 4
        (nth deck 4 % 256)
      { h with community_cards := cc, community_revealed := 5 }
    | .Flop =>
      let cc := (h.community_cards.set 3 (nth deck 3 % 256)).set 4 (nth deck 4 % 256)
      { h with community_cards := cc, community_revealed := 5 }
    | .Turn =>
      { h with community_cards := h.community_cards.set 4 (nth deck 4 % 256),
               community_revealed := 5 }
    | _ => h
  { h1 with phase := GamePhase.Showdown }

/-- The timeout handler (instructions/timeout_player.rs `handler`):
auto-Check if the seat already matches the current bet, else auto-Fold. -/
def timeout_player (table : TableS) (hand : HandState) (deck : List Nat)
    (seat : PlayerSeat) (now : Int) : Except HiddenHandError (HandState × PlayerSeat) :=
  if table.status ≠ TableStatus.Playing then .error .HandNotInProgress
  else if ¬ (hand.phase = GamePhase.PreFlop ∨ hand.phase = GamePhase.Flop ∨
      hand.phase = GamePhase.Turn ∨ hand.phase = GamePhase.River) then .error .InvalidPhase
  else if hand.action_on ≠ seat.seat_index then .error .NotPlayersTurn
  else if !(hand.is_player_active seat.seat_index) then .error .PlayerFolded
  else if seat.status ≠ PlayerStatus.Playing then .error .InvalidAction
  else if now - hand.last_action_time < ACTION_TIMEOUT_SECONDS then .error .ActionNotTimedOut
  else
    let can_check : Bool := hand.current_bet ≤ seat.current_bet
    let hs : HandState × PlayerSeat :=
      if can_check then (hand.mark_acted seat.seat_index, { seat with has_acted := true })
      else (hand.fold_player seat.seat_index, { seat with status := PlayerStatus.Folded })
    let hand1 : HandState := { hs.1 with last_action_time := now }
    let seat1 := hs.2
    if hand1.active_count = 1 then .ok ({ hand1 with phase := GamePhase.Showdown }, seat1)
    else
      let hand2 :=
        match hand1.next_active_player seat.seat_index table.max_players with
        | some next => { hand1 with
            action_on := skipAllInGo hand1 table.max_players table.max_players next }
        | none => hand1
      if hand2.is_betting_complete || !hand2.can_anyone_bet then
        if hand2.can_anyone_bet then
          .ok (advance_phase_with_cards hand2 deck table.max_players, seat1)
        else .ok (run_out_to_showdown_timeout hand2 deck, seat1)
      else .ok (hand2, seat1)

/-! Showdown settlement (instructions/showdown.rs).  Account validation
(`validate_seat_account`, duplicate detection) is identity-layer: the model
receives the already-validated seat list, in the order the accounts were
supplied by the caller.  The audit event has no effect on game state and is
not modelled. -/

/-- Seats collected into `active_seats` by showdown.rs: status Playing or AllIn. -/
def statusActive (s : PlayerSeat) : Bool :=
  s.status == PlayerStatus.Playing || s.status == PlayerStatus.AllIn

/-- A seat that showdown.rs treats as contesting the pot: status-active and
still in the hand's active-player bitmask. -/
def contesting (hand : HandState) (s : PlayerSeat) : Bool :=
  statusActive s && hand.is_player_active s.seat_index

/-- Build a contesting seat's 7-card hand: 2 hole cards (the revealed values
when revealed, else the low 8 bits of the encrypted handle) + 5 community. -/
def seven_cards (s : PlayerSeat) (community : List Nat) : List Nat :=
  let hole_card_1 := if s.cards_revealed then s.revealed_card_1 else s.hole_card_1 % 256
  let hole_card_2 := if s.cards_revealed then s.revealed_card_2 else s.hole_card_2 % 256
  [hole_card_1, hole_card_2, nth community 0, nth community 1, nth community 2,
    nth community 3, nth community 4]

/-- Side-pot excess refund stage of showdown.rs (lines 189-224): when at least
two contesting seats are present, each contesting seat is refunded the amount
by which its `total_bet_this_hand` exceeds the minimum among them, and the
local pot is reduced (`saturating_sub`) by each refund in turn. -/
def showdown_refund (hand : HandState) (pot : Nat) (seats : List PlayerSeat) :
    Nat × List PlayerSeat :=
  let player_bets := (seats.filter (contesting hand)).map (·.total_bet_this_hand)
  if 2 ≤ player_bets.length then
    let min_bet := player_bets.min?.getD 0
    let seats1 := seats.map fun s =>
      if contesting hand s && min_bet < s.total_bet_this_hand then
        s.award_chips (s.total_bet_this_hand - min_bet)
      else s
    let pot1 := player_bets.foldl (fun p b => p - (b - min_bet)) pot
    (pot1, seats1)
  else (pot, seats)

/-- Single-winner branch of showdown.rs: award the whole pot to the first
contesting seat in account order (the loop `break`s after one award). -/
def award_first_contesting (hand : HandState) (pot : Nat) : List PlayerSeat → List PlayerSeat
  | [] => []
  | s :: rest =>
    if contesting hand s then s.award_chips pot :: rest
    else s :: award_first_contesting hand pot rest

/-- Inner search of the distribution loop of showdown.rs: award `amt` to the
first status-active seat whose `seat_index` matches the winner index. -/
def award_to_seat (idx amt : Nat) : List PlayerSeat → List PlayerSeat
  | [] => []
  | s :: rest =>
    if statusActive s && s.seat_index == idx then s.award_chips amt :: rest
    else s :: award_to_seat idx amt rest

/-- Distribution loop of showdown.rs: each winner receives `share`; the winner
at position 0 of the winner list additionally receives the remainder. -/
def distribute_winnings (seats : List PlayerSeat) (winners : List Nat)
    (share remainder : Nat) : List PlayerSeat :=
  winners.enum.foldl
    (fun acc iw => award_to_seat iw.2 (if iw.1 = 0 then share + remainder else share) acc)
    seats

/-- Per-seat reset at the end of showdown.rs: every validated seat is returned
to Sitting with its per-hand fields cleared (chips are preserved). -/
def reset_seat_for_next_hand (s : PlayerSeat) : PlayerSeat :=
  { s with status := PlayerStatus.Sitting, current_bet := 0, total_bet_this_hand := 0,
           hole_card_1 := 255, hole_card_2 := 255, revealed_card_1 := 255,
           revealed_card_2 := 255, cards_revealed := false, has_acted := false }

/-- The showdown handler (instructions/showdown.rs `handler`). -/
def showdown (table : TableS) (hand : HandState) (seats : List PlayerSeat)
    (is_authority : Bool) (now : Int) :
    Except HiddenHandError (TableS × HandState × List PlayerSeat) :=
  if !is_authority && now - hand.last_action_time < ACTION_TIMEOUT_SECONDS then
    .error .UnauthorizedAuthority
  else if ¬ (hand.phase = GamePhase.Showdown ∨
      (hand.phase = GamePhase.Settled ∧ hand.active_count = 1)) then
    .error .InvalidPhase
  else
    let community := hand.community_cards.filter (· ≠ 255)
    if ¬ (community.length = 5 ∨ hand.active_count = 1) then .error .InvalidPhase
    else
      let rp := showdown_refund hand hand.pot seats
      let pot := rp.1
      let seats1 := rp.2
      if 1 < hand.active_count ∧
          seats1.any (fun s => contesting hand s && !s.cards_revealed) then
        .error .PlayersNotRevealed
      else
        let settled : Except HiddenHandError (List PlayerSeat) :=
          if hand.active_count = 1 then .ok (award_first_contesting hand pot seats1)
          else
            let player_hands := (seats1.filter (contesting hand)).map fun s =>
              (s.seat_index, seven_cards s community)
            let winners := find_winners player_hands
            if winners.length = 0 then .error .InvalidPhase
            else
              let share := pot / winners.length
              let remainder := pot % winners.length
              .ok (distribute_winnings seats1 winners share remainder)
        match settled with
        | .error e => .error e
        | .ok seats2 =>
          .ok ({ table with status := TableStatus.Waiting, last_ready_time := now },
               { hand with phase := GamePhase.Settled, pot := 0 },
               seats2.map reset_seat_for_next_hand)

/-! Order-theoretic facts about `cmpNat`, `lexCmp` and `EvaluatedHand.compare`. -/

theorem cmpNat_self (a : Nat) : cmpNat a a = .eq := by
  simp [cmpNat]

theorem cmpNat_eq_lt_iff {a b : Nat} : cmpNat a b = .lt ↔ a < b := by
  unfold cmpNat
  by_cases h1 : a < b
  · simp [h1]
  · by_cases h2 : b < a <;> simp [h1, h2]

theorem cmpNat_eq_gt_iff {a b : Nat} : cmpNat a b = .gt ↔ b < a := by
  unfold cmpNat
  by_cases h1 : a < b
  · simp [h1]; omega
  · by_cases h2 : b < a <;> simp [h1, h2]

theorem cmpNat_eq_eq_iff {a b : Nat} : cmpNat a b = .eq ↔ a = b := by
  unfold cmpNat
  by_cases h1 : a < b
  · simp [h1]; omega
  · by_cases h2 : b < a <;> simp [h1, h2] <;> omega

theorem cmpNat_swap (a b : Nat) : (cmpNat a b).swap = cmpNat b a := by
  unfold cmpNat
  by_cases h1 : a < b <;> by_cases h2 : b < a <;> simp [h1, h2, Ordering.swap] <;> omega

theorem lexCmp_nil_left (l : List Nat) : lexCmp [] l = .eq := by
  cases l <;> rfl

theorem lexCmp_nil_right (l : List Nat) : lexCmp l [] = .eq := by
  cases l <;> rfl

theorem lexCmp_cons_cons (x y : Nat) (xs ys : List Nat) :
    lexCmp (x :: xs) (y :: ys) =
      match cmpNat x y with
      | .eq => lexCmp xs ys
      | o => o := rfl

theorem lexCmp_refl : ∀ l : List Nat, lexCmp l l = .eq
  | [] => rfl
  | x :: xs => by
    rw [lexCmp_cons_cons, cmpNat_self]
    exact lexCmp_refl xs

theorem lexCmp_swap : ∀ l1 l2 : List Nat, (lexCmp l1 l2).swap = lexCmp l2 l1
  | [], l2 => by rw [lexCmp_nil_left, lexCmp_nil_right]; rfl
  | x :: xs, [] => by rw [lexCmp_nil_left, lexCmp_nil_right]; rfl
  | x :: xs, y :: ys => by
    rw [lexCmp_cons_cons, lexCmp_cons_cons, ← cmpNat_swap x y]
    cases cmpNat x y with
    | eq => exact lexCmp_swap xs ys
    | lt => rfl
    | gt => rfl

theorem lexCmp_eq_eq_iff : ∀ {l1 l2 : List Nat}, l1.length = l2.length →
    (lexCmp l1 l2 = .eq ↔ l1 = l2) := by
  intro l1
  induction l1 with
  | nil =>
    intro l2 hl
    cases l2 with
    | nil => simp [lexCmp_nil_left]
    | cons y ys => simp at hl
  | cons x xs ih =>
    intro l2 hl
    cases l2 with
    | nil => simp at hl
    | cons y ys =>
      rw [lexCmp_cons_cons]
      rcases h : cmpNat x y with _ | _ | _
      · have := cmpNat_eq_lt_iff.mp h
        constructor
        · intro hc; exact absurd hc (by simp)
        · intro hc
          injection hc with h1 h2
          omega
      · have hxy := cmpNat_eq_eq_iff.mp h
        subst hxy
        have := ih (by simpa using hl : xs.length = ys.length)
        simpa using this
      · have := cmpNat_eq_gt_iff.mp h
        constructor
        · intro hc; exact absurd hc (by simp)
        · intro hc
          injection hc with h1 h2
          omega

theorem lexCmp_gt_notlt : ∀ (l1 l2 l3 : List Nat),
    lexCmp l1 l2 = .gt → lexCmp l2 l3 ≠ .lt → lexCmp l1 l3 ≠ .lt
  | [], l2, l3, h12, _ => by rw [lexCmp_nil_left] at h12; exact absurd h12 (by simp)
  | x :: xs, [], l3, h12, _ => by rw [lexCmp_nil_right] at h12; exact absurd h12 (by simp)
  | x :: xs, y :: ys, [], _, _ => by rw [lexCmp_nil_right]; simp
  | x :: xs, y :: ys, z :: zs, h12, h23 => by
    rw [lexCmp_cons_cons] at h12 h23 ⊢
    rcases hxy : cmpNat x y with _ | _ | _ <;> rw [hxy] at h12
    · exact absurd h12 (by simp)
    · -- x = y, kicker tail strictly greater
      have hxy' := cmpNat_eq_eq_iff.mp hxy
      rcases hyz : cmpNat y z with _ | _ | _ <;> rw [hyz] at h23
      · exact absurd rfl h23
      · have hyz' := cmpNat_eq_eq_iff.mp hyz
        have hxz : cmpNat x z = .eq := cmpNat_eq_eq_iff.mpr (hxy'.trans hyz')
        rw [hxz]
        exact lexCmp_gt_notlt xs ys zs h12 h23
      · have hyz' := cmpNat_eq_gt_iff.mp hyz
        have hxz : cmpNat x z = .gt := cmpNat_eq_gt_iff.mpr (by omega)
        rw [hxz]; simp
    · -- x > y
      have hxy' := cmpNat_eq_gt_iff.mp hxy
      rcases hyz : cmpNat y z with _ | _ | _ <;> rw [hyz] at h23
      · exact absurd rfl h23
      · have hyz' := cmpNat_eq_eq_iff.mp hyz
        have hxz : cmpNat x z = .gt := cmpNat_eq_gt_iff.mpr (by omega)
        rw [hxz]; simp
      · have hyz' := cmpNat_eq_gt_iff.mp hyz
        have hxz : cmpNat x z = .gt := cmpNat_eq_gt_iff.mpr (by omega)
        rw [hxz]; simp

theorem HandRank.toNat_inj : ∀ {r1 r2 : HandRank}, r1.toNat = r2.toNat → r1 = r2 := by
  intro r1 r2
  cases r1 <;> cases r2 <;> simp [HandRank.toNat]

theorem compare_def (h1 h2 : EvaluatedHand) :
    h1.compare h2 =
      match cmpNat h1.rank.toNat h2.rank.toNat with
      | .eq => lexCmp h1.kickers h2.kickers
      | o => o := rfl

theorem compare_refl (h : EvaluatedHand) : h.compare h = .eq := by
  rw [compare_def, cmpNat_self]
  exact lexCmp_refl _

theorem compare_swap (h1 h2 : EvaluatedHand) : (h1.compare h2).swap = h2.compare h1 := by
  rw [compare_def, compare_def, ← cmpNat_swap h1.rank.toNat h2.rank.toNat]
  cases cmpNat h1.rank.toNat h2.rank.toNat with
  | eq => exact lexCmp_swap _ _
  | lt => rfl
  | gt => rfl

theorem compare_gt_iff_lt (h1 h2 : EvaluatedHand) :
    h1.compare h2 = .gt ↔ h2.compare h1 = .lt := by
  rw [← compare_swap h1 h2]
  cases h1.compare h2 <;> simp [Ordering.swap]

theorem compare_eq_eq_iff {h1 h2 : EvaluatedHand}
    (hl : h1.kickers.length = h2.kickers.length) : h1.compare h2 = .eq ↔ h1 = h2 := by
  rw [compare_def]
  rcases hr : cmpNat h1.rank.toNat h2.rank.toNat with _ | _ | _
  · constructor
    · intro hc; exact absurd hc (by simp)
    · rintro rfl; rw [cmpNat_self] at hr; exact absurd hr (by simp)
  · have hreq : h1.rank = h2.rank := HandRank.toNat_inj (cmpNat_eq_eq_iff.mp hr)
    rw [lexCmp_eq_eq_iff hl]
    cases h1; cases h2
    simp_all
  · constructor
    · intro hc; exact absurd hc (by simp)
    · rintro rfl; rw [cmpNat_self] at hr; exact absurd hr (by simp)

theorem compare_gt_notlt {h1 h2 h3 : EvaluatedHand} (hgt : h1.compare h2 = .gt)
    (hge : h2.compare h3 ≠ .lt) : h1.compare h3 ≠ .lt := by
  rw [compare_def] at hgt hge ⊢
  rcases h12 : cmpNat h1.rank.toNat h2.rank.toNat with _ | _ | _ <;> rw [h12] at hgt
  · exact absurd hgt (by simp)
  · have h12' := cmpNat_eq_eq_iff.mp h12
    rcases h23 : cmpNat h2.rank.toNat h3.rank.toNat with _ | _ | _ <;> rw [h23] at hge
    · exact absurd rfl hge
    · have h23' := cmpNat_eq_eq_iff.mp h23
      have h13 : cmpNat h1.rank.toNat h3.rank.toNat = .eq :=
        cmpNat_eq_eq_iff.mpr (h12'.trans h23')
      rw [h13]
      exact lexCmp_gt_notlt _ _ _ hgt hge
    · have h23' := cmpNat_eq_gt_iff.mp h23
      have h13 : cmpNat h1.rank.toNat h3.rank.toNat = .gt :=
        cmpNat_eq_gt_iff.mpr (by omega)
      rw [h13]; simp
  · have h12' := cmpNat_eq_gt_iff.mp h12
    rcases h23 : cmpNat h2.rank.toNat h3.rank.toNat with _ | _ | _ <;> rw [h23] at hge
    · exact absurd rfl hge
    · have h23' := cmpNat_eq_eq_iff.mp h23
      have h13 : cmpNat h1.rank.toNat h3.rank.toNat = .gt :=
        cmpNat_eq_gt_iff.mpr (by omega)
      rw [h13]; simp
    · have h23' := cmpNat_eq_gt_iff.mp h23
      have h13 : cmpNat h1.rank.toNat h3.rank.toNat = .gt :=
        cmpNat_eq_gt_iff.mpr (by omega)
      rw [h13]; simp

theorem compare_notlt_trans {h1 h2 h3 : EvaluatedHand}
    (hl : h1.kickers.length = h2.kickers.length)
    (a : h1.compare h2 ≠ .lt) (b : h2.compare h3 ≠ .lt) : h1.compare h3 ≠ .lt := by
  rcases h12 : h1.compare h2 with _ | _ | _
  · exact absurd h12 a
  · have : h1 = h2 := (compare_eq_eq_iff hl).mp h12
    subst this
    exact b
  · exact compare_gt_notlt h12 b

theorem compare_notlt_gt {h1 h2 h3 : EvaluatedHand} (a : h1.compare h2 ≠ .lt)
    (b : h2.compare h3 = .gt) : h1.compare h3 ≠ .lt := by
  intro hlt
  have h31 : h3.compare h1 = .gt := (compare_gt_iff_lt h3 h1).mpr hlt
  have h32 : h3.compare h2 ≠ .lt := compare_gt_notlt h31 a
  exact h32 ((compare_gt_iff_lt h2 h3).mp b)

/-! The running-best loop of `evaluate_hand` computes a maximum. -/

theorem bestFold_spec : ∀ (l : List EvaluatedHand) (b0 : EvaluatedHand),
    (∀ e ∈ l, e.kickers.length = 5) → b0.kickers.length = 5 →
    ∃ b, l.foldl bestStep (some b0) = some b ∧ (b = b0 ∨ b ∈ l) ∧
      b.compare b0 ≠ .lt ∧ (∀ e ∈ l, b.compare e ≠ .lt) ∧ b.kickers.length = 5
  | [], b0, _, hb0 =>
    ⟨b0, rfl, .inl rfl, by rw [compare_refl]; simp, by simp, hb0⟩
  | e :: rest, b0, hWF, hb0 => by
    have hE : e.kickers.length = 5 := hWF e (by simp)
    have hrest : ∀ x ∈ rest, x.kickers.length = 5 := fun x hx => hWF x (by simp [hx])
    simp only [List.foldl_cons]
    by_cases hgt : e.compare b0 = .gt
    · have hstep : bestStep (some b0) e = some e := by simp [bestStep, hgt]
      rw [hstep]
      obtain ⟨b, hfold, hmem, hge, hall, hbl⟩ := bestFold_spec rest e hrest hE
      refine ⟨b, hfold, ?_, ?_, ?_, hbl⟩
      · rcases hmem with rfl | h
        · exact .inr (by simp)
        · exact .inr (by simp [h])
      · exact compare_notlt_gt hge hgt
      · intro x hx
        rcases List.mem_cons.mp hx with rfl | hx'
        · exact hge
        · exact hall x hx'
    · have hstep : bestStep (some b0) e = some b0 := by simp [bestStep, hgt]
      rw [hstep]
      obtain ⟨b, hfold, hmem, hge, hall, hbl⟩ := bestFold_spec rest b0 hrest hb0
      refine ⟨b, hfold, ?_, hge, ?_, hbl⟩
      · rcases hmem with rfl | h
        · exact .inl rfl
        · exact .inr (by simp [h])
      · intro x hx
        rcases List.mem_cons.mp hx with rfl | hx'
        · have hb0e : b0.compare x ≠ .lt := by
            intro hlt
            exact hgt ((compare_gt_iff_lt x b0).mpr hlt)
          exact compare_notlt_trans (by rw [hbl, hb0]) hge hb0e
        · exact hall x hx'

theorem bestOf_spec (l : List EvaluatedHand) (hWF : ∀ e ∈ l, e.kickers.length = 5)
    (hne : l ≠ []) :
    ∃ b, bestOf l = some b ∧ b ∈ l ∧ ∀ e ∈ l, b.compare e ≠ .lt := by
  cases l with
  | nil => exact absurd rfl hne
  | cons e rest =>
    have hfirst : bestOf (e :: rest) = rest.foldl bestStep (some e) := rfl
    obtain ⟨b, hfold, hmem, hge, hall, _⟩ :=
      bestFold_spec rest e (fun x hx => hWF x (by simp [hx])) (hWF e (by simp))
    refine ⟨b, by rw [hfirst, hfold], ?_, ?_⟩
    · rcases hmem with rfl | h
      · simp
      · simp [h]
    · intro x hx
      rcases List.mem_cons.mp hx with rfl | hx'
      · exact hge
      · exact hall x hx'

theorem classify_kickers_length (ranks : List Nat) (fl : Bool) :
    (classify ranks fl).kickers.length = 5 := by
  unfold classify
  dsimp only
  repeat' split
  all_goals rfl

theorem evaluate_five_cards_kickers_length (c0 c1 c2 c3 c4 : Nat) :
    (evaluate_five_cards c0 c1 c2 c3 c4).kickers.length = 5 :=
  classify_kickers_length _ _

theorem subsetEvals_kickers_length (cards : List Nat) :
    ∀ e ∈ subsetEvals cards, e.kickers.length = 5 := by
  intro e he
  simp only [subsetEvals, List.mem_map] at he
  obtain ⟨c, _, rfl⟩ := he
  exact evaluate_five_cards_kickers_length _ _ _ _ _

theorem subsetEvals_ne_nil (cards : List Nat) : subsetEvals cards ≠ [] := by
  simp only [subsetEvals, ne_eq, List.map_eq_nil_iff]
  decide

/-- C10: `evaluate_hand` is total on every 7-card input (no distinctness
needed): the running best is always `some`, so the source's final `unwrap`
cannot panic, and `evaluate_hand` is exactly its value. -/
theorem evaluate_hand_total (cards : List Nat) (h7 : cards.length = 7)
    (hu8 : ∀ c ∈ cards, c < 256) :
    bestOf (subsetEvals cards) = some (evaluate_hand cards) := by
  obtain ⟨b, hb, _, _⟩ :=
    bestOf_spec (subsetEvals cards) (subsetEvals_kickers_length cards) (subsetEvals_ne_nil cards)
  rw [evaluate_hand, hb]
  rfl

/-- Witness for C10 at a concrete 7-card array. -/
theorem evaluate_hand_total_witness :
    (([0, 1, 2, 3, 4, 5, 6] : List Nat).length = 7) ∧
      (∀ c ∈ ([0, 1, 2, 3, 4, 5, 6] : List Nat), c < 256) ∧
      bestOf (subsetEvals [0, 1, 2, 3, 4, 5, 6]) =
        some (evaluate_hand [0, 1, 2, 3, 4, 5, 6]) :=
  ⟨by decide, by decide, evaluate_hand_total _ (by decide) (by decide)⟩

/-- C1: on any 7 distinct cards in 0..51, `evaluate_hand` returns the maximum,
under `EvaluatedHand.compare` (rank first, then the 5 kicker slots
lexicographically), of `evaluate_five_cards` over all 21 five-card subsets:
its result is one of the 21 subset evaluations and compares not-Less against
every one of them. -/
theorem evaluate_hand_max_of_subsets (cards : List Nat) (h7 : cards.length = 7)
    (hnd : cards.Nodup) (hcard : ∀ c ∈ cards, c < 52) :
    evaluate_hand cards ∈ subsetEvals cards ∧
      ∀ e ∈ subsetEvals cards, (evaluate_hand cards).compare e ≠ .lt := by
  obtain ⟨b, hb, hmem, hall⟩ :=
    bestOf_spec (subsetEvals cards) (subsetEvals_kickers_length cards) (subsetEvals_ne_nil cards)
  have hval : evaluate_hand cards = b := by rw [evaluate_hand, hb]; rfl
  rw [hval]
  exact ⟨hmem, hall⟩

/-- Witness for C1 at a concrete 7-card array. -/
theorem evaluate_hand_max_of_subsets_witness :
    (([12, 25, 38, 51, 11, 13, 27] : List Nat).length = 7) ∧
      ([12, 25, 38, 51, 11, 13, 27] : List Nat).Nodup ∧
      (∀ c ∈ ([12, 25, 38, 51, 11, 13, 27] : List Nat), c < 52) ∧
      (evaluate_hand [12, 25, 38, 51, 11, 13, 27] ∈ subsetEvals [12, 25, 38, 51, 11, 13, 27] ∧
        ∀ e ∈ subsetEvals [12, 25, 38, 51, 11, 13, 27],
          (evaluate_hand [12, 25, 38, 51, 11, 13, 27]).compare e ≠ .lt) :=
  ⟨by decide, by decide, by decide,
    evaluate_hand_max_of_subsets _ (by decide) (by decide) (by decide)⟩

/-- C8: `EvaluatedHand.compare` is antisymmetric — `compare h1 h2 = Greater`
exactly when `compare h2 h1 = Less` — and any two evaluated hands with equal
rank and equal kicker tuples compare `Equal` (an `EvaluatedHand` carries no
suit information at all, so the result is independent of the underlying
cards' suits). -/
theorem compare_antisymm_and_suit_blind :
    ∀ h1 h2 : EvaluatedHand,
      (h1.compare h2 = .gt ↔ h2.compare h1 = .lt) ∧
      (h1.rank = h2.rank → h1.kickers = h2.kickers → h1.compare h2 = .eq) := by
  intro h1 h2
  refine ⟨compare_gt_iff_lt h1 h2, ?_⟩
  intro hr hk
  rw [compare_def, hr, cmpNat_self, hk]
  exact lexCmp_refl _

/-- Witness for C8 at concrete evaluated hands. -/
theorem compare_antisymm_and_suit_blind_witness :
    ((EvaluatedHand.mk .Flush [12, 10, 8, 6, 2]).compare ⟨.Straight, [8, 0, 0, 0, 0]⟩ = .gt ↔
      (EvaluatedHand.mk .Straight [8, 0, 0, 0, 0]).compare ⟨.Flush, [12, 10, 8, 6, 2]⟩ = .lt) ∧
    (EvaluatedHand.mk .OnePair [9, 12, 11, 8, 0]).compare ⟨.OnePair, [9, 12, 11, 8, 0]⟩ = .eq :=
  ⟨(compare_antisymm_and_suit_blind _ _).1,
    (compare_antisymm_and_suit_blind _ _).2 rfl rfl⟩

/-! Claim C7: the Ace-low wheel. -/

theorem sortDesc_eq_of_perm {l target : List Nat} (hp : List.Perm l target)
    (hs : target.Sorted (· ≥ ·)) : sortDesc l = target :=
  List.eq_of_perm_of_sorted ((List.perm_insertionSort _ l).trans hp)
    (List.sorted_insertionSort _ l) hs

/-- Any five cards whose ranks are a permutation of A-2-3-4-5 and whose suits
are not all equal evaluate to the 5-high Straight with kickers `[3,0,0,0,0]`. -/
theorem evaluate_five_cards_wheel (c0 c1 c2 c3 c4 : Nat)
    (hperm : List.Perm [get_rank c0, get_rank c1, get_rank c2, get_rank c3, get_rank c4]
      [12, 3, 2, 1, 0])
    (hsuit : ¬ (get_suit c0 = get_suit c1 ∧ get_suit c1 = get_suit c2 ∧
      get_suit c2 = get_suit c3 ∧ get_suit c3 = get_suit c4)) :
    evaluate_five_cards c0 c1 c2 c3 c4 = ⟨.Straight, [3, 0, 0, 0, 0]⟩ := by
  unfold evaluate_five_cards
  dsimp only
  have hr : sortDesc [get_rank c0, get_rank c1, get_rank c2, get_rank c3, get_rank c4] =
      [12, 3, 2, 1, 0] := sortDesc_eq_of_perm hperm (by decide)
  rw [hr]
  rcases hfl : (get_suit c0 == get_suit c1 && get_suit c1 == get_suit c2 &&
      get_suit c2 == get_suit c3 && get_suit c3 == get_suit c4) with _ | _
  · rfl
  · have := of_decide_eq_true (by simpa [Bool.and_assoc] using hfl)
    exact absurd (by tauto) hsuit

/-- Any five cards whose ranks are a permutation of 2-3-4-5-6 and whose suits
are not all equal evaluate to the 6-high Straight with kickers `[4,0,0,0,0]`. -/
theorem evaluate_five_cards_six_high_straight (c0 c1 c2 c3 c4 : Nat)
    (hperm : List.Perm [get_rank c0, get_rank c1, get_rank c2, get_rank c3, get_rank c4]
      [4, 3, 2, 1, 0])
    (hsuit : ¬ (get_suit c0 = get_suit c1 ∧ get_suit c1 = get_suit c2 ∧
      get_suit c2 = get_suit c3 ∧ get_suit c3 = get_suit c4)) :
    evaluate_five_cards c0 c1 c2 c3 c4 = ⟨.Straight, [4, 0, 0, 0, 0]⟩ := by
  unfold evaluate_five_cards
  dsimp only
  have hr : sortDesc [get_rank c0, get_rank c1, get_rank c2, get_rank c3, get_rank c4] =
      [4, 3, 2, 1, 0] := sortDesc_eq_of_perm hperm (by decide)
  rw [hr]
  rcases hfl : (get_suit c0 == get_suit c1 && get_suit c1 == get_suit c2 &&
      get_suit c2 == get_suit c3 && get_suit c3 == get_suit c4) with _ | _
  · rfl
  · have := of_decide_eq_true (by simpa [Bool.and_assoc] using hfl)
    exact absurd (by tauto) hsuit

/-- C7: for any 7 distinct cards whose best five-card subset is the Ace-low
wheel A-2-3-4-5 not all of one suit (some subset is such a wheel, and no
subset evaluates above the 5-high straight), `evaluate_hand` returns rank
Straight with kicker tuple `[3,0,0,0,0]` — the rank value of the card 5 —
and that hand compares strictly below the evaluation of any (non-flush)
6-high straight. -/
theorem evaluate_hand_wheel (cards : List Nat) (h7 : cards.length = 7)
    (hnd : cards.Nodup) (hcard : ∀ c ∈ cards, c < 52)
    (hbest : ∀ e ∈ subsetEvals cards,
      e.compare ⟨.Straight, [3, 0, 0, 0, 0]⟩ ≠ .gt)
    (hwheel : ∃ c ∈ combos5,
      List.Perm [get_rank (nth cards c.1), get_rank (nth cards c.2.1),
        get_rank (nth cards c.2.2.1), get_rank (nth cards c.2.2.2.1),
        get_rank (nth cards c.2.2.2.2)] [12, 3, 2, 1, 0] ∧
      ¬ (get_suit (nth cards c.1) = get_suit (nth cards c.2.1) ∧
        get_suit (nth cards c.2.1) = get_suit (nth cards c.2.2.1) ∧
        get_suit (nth cards c.2.2.1) = get_suit (nth cards c.2.2.2.1) ∧
        get_suit (nth cards c.2.2.2.1) = get_suit (nth cards c.2.2.2.2))) :
    evaluate_hand cards = ⟨.Straight, [3, 0, 0, 0, 0]⟩ ∧
    ∀ d0 d1 d2 d3 d4 : Nat,
      List.Perm [get_rank d0, get_rank d1, get_rank d2, get_rank d3, get_rank d4]
        [4, 3, 2, 1, 0] →
      ¬ (get_suit d0 = get_suit d1 ∧ get_suit d1 = get_suit d2 ∧
        get_suit d2 = get_suit d3 ∧ get_suit d3 = get_suit d4) →
      (evaluate_hand cards).compare (evaluate_five_cards d0 d1 d2 d3 d4) = .lt := by
  obtain ⟨c, hc, hperm, hsuit⟩ := hwheel
  have hwmem : (⟨.Straight, [3, 0, 0, 0, 0]⟩ : EvaluatedHand) ∈ subsetEvals cards := by
    rw [← evaluate_five_cards_wheel _ _ _ _ _ hperm hsuit]
    simp only [subsetEvals, List.mem_map]
    exact ⟨c, hc, rfl⟩
  obtain ⟨b, hb, hmem, hall⟩ :=
    bestOf_spec (subsetEvals cards) (subsetEvals_kickers_length cards) (subsetEvals_ne_nil cards)
  have hval : evaluate_hand cards = b := by rw [evaluate_hand, hb]; rfl
  have hnotlt : b.compare ⟨.Straight, [3, 0, 0, 0, 0]⟩ ≠ .lt := hall _ hwmem
  have hnotgt : b.compare ⟨.Straight, [3, 0, 0, 0, 0]⟩ ≠ .gt := hbest b hmem
  have heq : b.compare ⟨.Straight, [3, 0, 0, 0, 0]⟩ = .eq := by
    rcases h : b.compare ⟨.Straight, [3, 0, 0, 0, 0]⟩ with _ | _ | _
    · exact absurd h hnotlt
    · rfl
    · exact absurd h hnotgt
  have hbw : b = ⟨.Straight, [3, 0, 0, 0, 0]⟩ :=
    (compare_eq_eq_iff (by rw [subsetEvals_kickers_length cards b hmem]; rfl)).mp heq
  refine ⟨by rw [hval, hbw], ?_⟩
  intro d0 d1 d2 d3 d4 hdperm hdsuit
  rw [hval, hbw, evaluate_five_cards_six_high_straight _ _ _ _ _ hdperm hdsuit]
  decide

/-- Witness for C7: the Rust test hand Ah 2d 3c 4s 5h Qd Kc, against the
6-high straight 6h 5d 4h 3h 2h. -/
theorem evaluate_hand_wheel_witness :
    (([12, 13, 27, 41, 3, 23, 37] : List Nat).length = 7) ∧
      ([12, 13, 27, 41, 3, 23, 37] : List Nat).Nodup ∧
      (∀ c ∈ ([12, 13, 27, 41, 3, 23, 37] : List Nat), c < 52) ∧
      evaluate_hand [12, 13, 27, 41, 3, 23, 37] = ⟨.Straight, [3, 0, 0, 0, 0]⟩ ∧
      (evaluate_hand [12, 13, 27, 41, 3, 23, 37]).compare
        (evaluate_five_cards 4 16 2 1 0) = .lt := by
  have h := evaluate_hand_wheel [12, 13, 27, 41, 3, 23, 37] (by decide) (by decide)
    (by decide) (by decide) (by decide)
  exact ⟨by decide, by decide, by decide, h.1, h.2 4 16 2 1 0 (by decide) (by decide)⟩

/-! Claim C5: betting-round completion and the acted-bit reset on a raise. -/

theorem mask_test (n i : Nat) : (n &&& (1 <<< i) != 0) = n.testBit i := by
  rw [Nat.shiftLeft_eq, one_mul, Nat.and_two_pow]
  have hp : (2 : Nat) ^ i ≠ 0 := by positivity
  cases h : n.testBit i <;> simp [h, hp]


theorem is_player_active_eq (h : HandState) (i : Nat) :
    h.is_player_active i = h.active_players.testBit i := mask_test _ _

theorem is_player_all_in_eq (h : HandState) (i : Nat) :
    h.is_player_all_in i = h.all_in_players.testBit i := mask_test _ _

theorem has_player_acted_eq (h : HandState) (i : Nat) :
    h.has_player_acted i = h.acted_this_round.testBit i := mask_test _ _

theorem byte_compl_testBit {m : Nat} (hm : m < 256) (i : Nat) :
    (255 ^^^ m).testBit i = (decide (i < 8) && !m.testBit i) := by
  rw [Nat.testBit_xor]
  have h255 : (255 : Nat) = 2 ^ 8 - 1 := by norm_num
  rw [h255, Nat.testBit_two_pow_sub_one]
  by_cases hi : i < 8
  · simp [hi]
  · have : m.testBit i = false := Nat.testBit_lt_two_pow (by
      calc m < 256 := hm
        _ = 2 ^ 8 := by norm_num
        _ ≤ 2 ^ i := Nat.pow_le_pow_right (by omega) (by omega))
    simp [hi, this]

/-- Helper: `is_betting_complete` as a per-seat condition. -/
theorem is_betting_complete_iff (h : HandState)
    (hai : h.all_in_players < 256) (hacted : h.acted_this_round < 256) :
    h.is_betting_complete = true ↔
      ∀ i, i < 8 → h.is_player_active i = true → h.is_player_all_in i = false →
        h.has_player_acted i = true := by
  unfold HandState.is_betting_complete HandState.players_who_can_bet
  rw [beq_iff_eq]
  constructor
  · intro h0 i hi hact hnall
    have hbit := congrArg (fun n => n.testBit i) h0
    simp only [Nat.testBit_and, Nat.zero_testBit] at hbit
    rw [byte_compl_testBit hai, byte_compl_testBit hacted] at hbit
    rw [is_player_active_eq] at hact
    rw [is_player_all_in_eq] at hnall
    rw [has_player_acted_eq]
    simpa [hi, hact, hnall] using hbit
  · intro hall
    apply Nat.eq_of_testBit_eq
    intro i
    simp only [Nat.testBit_and, Nat.zero_testBit]
    rw [byte_compl_testBit hai, byte_compl_testBit hacted]
    by_cases hi : i < 8
    · by_cases hact : h.active_players.testBit i
      · by_cases hnall : h.all_in_players.testBit i
        · simp [hnall]
        · have := hall i hi (by rw [is_player_active_eq]; exact hact)
            (by rw [is_player_all_in_eq]; simpa using hnall)
          rw [has_player_acted_eq] at this
          simp [hi, hact, hnall, this]
      · simp [hact]
    · simp [hi]

theorem advance_to_next_phase_acted (h : HandState) :
    (advance_to_next_phase h).acted_this_round = h.acted_this_round := by
  unfold advance_to_next_phase
  split <;> rfl

theorem advance_to_next_phase_current_bet (h : HandState) :
    (advance_to_next_phase h).current_bet = h.current_bet := by
  unfold advance_to_next_phase
  split <;> rfl

theorem run_out_action_acted (h : HandState) :
    (run_out_to_showdown_action h).acted_this_round = h.acted_this_round := by
  unfold run_out_to_showdown_action
  split <;> rfl

theorem run_out_action_current_bet (h : HandState) :
    (run_out_to_showdown_action h).current_bet = h.current_bet := by
  unfold run_out_to_showdown_action
  split <;> rfl

theorem place_bet_seat_index (s : PlayerSeat) (a : Nat) :
    (s.place_bet a).1.seat_index = s.seat_index := by
  unfold PlayerSeat.place_bet
  dsimp only
  split <;> rfl

theorem post_action_acted (t : TableS) (h : HandState) (s : PlayerSeat) (now : Int) :
    (post_action t h s now).1.acted_this_round =
      (h.acted_this_round ||| (1 <<< s.seat_index)) := by
  unfold post_action
  dsimp only
  repeat' split
  all_goals
    simp [HandState.mark_acted, HandState.mark_all_in, advance_to_next_phase_acted,
      run_out_action_acted]

theorem post_action_current_bet (t : TableS) (h : HandState) (s : PlayerSeat) (now : Int) :
    (post_action t h s now).1.current_bet = h.current_bet := by
  unfold post_action
  dsimp only
  repeat' split
  all_goals
    simp [HandState.mark_acted, HandState.mark_all_in, advance_to_next_phase_current_bet,
      run_out_action_current_bet]

/-- Helper: a Raise accepted by the handler that increased `current_bet` left
the acted mask holding exactly the raiser's bit. -/
theorem raise_resets_acted (table : TableS) (hand : HandState) (seat : PlayerSeat)
    (amount : Nat) (now : Int) (hand1 : HandState) (seat1 : PlayerSeat)
    (hok : player_action table hand seat (.Raise amount) now = .ok (hand1, seat1))
    (hinc : hand.current_bet < hand1.current_bet) :
    hand1.acted_this_round = 1 <<< seat.seat_index := by
  unfold player_action at hok
  split at hok
  · exact Except.noConfusion hok
  split at hok
  · exact Except.noConfusion hok
  split at hok
  · exact Except.noConfusion hok
  split at hok
  · exact Except.noConfusion hok
  split at hok
  · exact Except.noConfusion hok
  dsimp only at hok
  split at hok
  · exact Except.noConfusion hok
  rename_i step hs heq
  split at heq
  · exact absurd heq (by simp)
  injection heq with heq
  subst heq
  injection hok with hok
  by_cases hcb : hand.current_bet < (seat.place_bet amount).1.current_bet
  · rw [if_pos hcb] at hok
    have ha := congrArg (fun p => p.1.acted_this_round) hok
    dsimp only at ha
    rw [post_action_acted] at ha
    dsimp only at ha
    rw [← ha]
    simp [place_bet_seat_index]
  · rw [if_neg hcb] at hok
    have hc := congrArg (fun p => p.1.current_bet) hok
    dsimp only at hc
    rw [post_action_current_bet] at hc
    dsimp only at hc
    omega

/-- Helper: an AllIn accepted by the handler that increased `current_bet`
left the acted mask holding exactly the raiser's bit. -/
theorem all_in_resets_acted (table : TableS) (hand : HandState) (seat : PlayerSeat)
    (now : Int) (hand1 : HandState) (seat1 : PlayerSeat)
    (hok : player_action table hand seat .AllIn now = .ok (hand1, seat1))
    (hinc : hand.current_bet < hand1.current_bet) :
    hand1.acted_this_round = 1 <<< seat.seat_index := by
  unfold player_action at hok
  split at hok
  · exact Except.noConfusion hok
  split at hok
  · exact Except.noConfusion hok
  split at hok
  · exact Except.noConfusion hok
  split at hok
  · exact Except.noConfusion hok
  split at hok
  · exact Except.noConfusion hok
  dsimp only at hok
  injection hok with hok
  by_cases hcb : hand.current_bet < (seat.place_bet seat.chips).1.current_bet
  · rw [if_pos hcb] at hok
    have ha := congrArg (fun p => p.1.acted_this_round) hok
    dsimp only at ha
    rw [post_action_acted] at ha
    simp only [HandState.mark_all_in] at ha
    rw [← ha]
    simp [place_bet_seat_index]
  · rw [if_neg hcb] at hok
    have hc := congrArg (fun p => p.1.current_bet) hok
    dsimp only at hc
    rw [post_action_current_bet] at hc
    simp only [HandState.mark_all_in] at hc
    omega

/-- C5: `is_betting_complete` is true exactly when every seat in the active
set and not in the all-in set has its acted bit set; and an accepted Raise or
AllIn that increased `current_bet` ends the operation with the acted mask
equal to just the raiser's bit — the raiser's acted-bit set and every other
seat's acted-bit cleared. -/
theorem betting_complete_iff_and_raise_resets_acted :
    (∀ h : HandState, h.all_in_players < 256 → h.acted_this_round < 256 →
      (h.is_betting_complete = true ↔
        ∀ i, i < 8 → h.is_player_active i = true → h.is_player_all_in i = false →
          h.has_player_acted i = true)) ∧
    (∀ (table : TableS) (hand : HandState) (seat : PlayerSeat) (act : Action)
        (now : Int) (hand1 : HandState) (seat1 : PlayerSeat),
      (act = .AllIn ∨ ∃ amount, act = .Raise amount) →
      player_action table hand seat act now = .ok (hand1, seat1) →
      hand.current_bet < hand1.current_bet →
      hand1.has_player_acted seat.seat_index = true ∧
        ∀ j, j ≠ seat.seat_index → hand1.has_player_acted j = false) := by
  constructor
  · exact fun h => is_betting_complete_iff h
  · intro table hand seat act now hand1 seat1 hact hok hinc
    have hmask : hand1.acted_this_round = 1 <<< seat.seat_index := by
      rcases hact with rfl | ⟨amount, rfl⟩
      · exact all_in_resets_acted table hand seat now hand1 seat1 hok hinc
      · exact raise_resets_acted table hand seat amount now hand1 seat1 hok hinc
    constructor
    · rw [has_player_acted_eq, hmask, Nat.shiftLeft_eq, one_mul]
      exact Nat.testBit_two_pow_self
    · intro j hj
      rw [has_player_acted_eq, hmask, Nat.shiftLeft_eq, one_mul]
      exact Nat.testBit_two_pow_of_ne (Ne.symm hj)

/-- Concrete table used by witnesses and counterexamples. -/
def tableW : TableS := ⟨.Playing, 6, 0⟩

/-- Concrete pre-raise hand state: two active seats, seat 1 already acted. -/
def handW : HandState :=
  { phase := .PreFlop, pot := 30, current_bet := 10, min_raise := 10, dealer_position := 0,
    action_on := 0, community_cards := [255, 255, 255, 255, 255], community_revealed := 0,
    active_players := 3, acted_this_round := 2, active_count := 2, all_in_players := 0,
    awaiting_community_reveal := false, last_action_time := 0 }

/-- Concrete seat 0 about to raise. -/
def seatW : PlayerSeat :=
  { seat_index := 0, chips := 100, current_bet := 0, total_bet_this_hand := 10,
    hole_card_1 := 0, hole_card_2 := 14, status := .Playing, has_acted := false,
    cards_revealed := false, revealed_card_1 := 255, revealed_card_2 := 255 }

/-- The hand state produced by seat 0 raising to 30 from `handW`. -/
def handWR : HandState :=
  { phase := .PreFlop, pot := 60, current_bet := 30, min_raise := 20, dealer_position := 0,
    action_on := 1, community_cards := [255, 255, 255, 255, 255], community_revealed := 0,
    active_players := 3, acted_this_round := 1, active_count := 2, all_in_players := 0,
    awaiting_community_reveal := false, last_action_time := 5 }

/-- The seat produced by seat 0 raising to 30 from `seatW`. -/
def seatWR : PlayerSeat :=
  { seat_index := 0, chips := 70, current_bet := 30, total_bet_this_hand := 40,
    hole_card_1 := 0, hole_card_2 := 14, status := .Playing, has_acted := true,
    cards_revealed := false, revealed_card_1 := 255, revealed_card_2 := 255 }

/-- Witness for C5: the completion criterion at a concrete mask state, and a
concrete accepted raise that bumped the bet, after which only the raiser's
acted-bit is set. -/
theorem betting_complete_iff_and_raise_resets_acted_witness :
    (handW.all_in_players < 256 ∧ handW.acted_this_round < 256 ∧
      (handW.is_betting_complete = true ↔
        ∀ i, i < 8 → handW.is_player_active i = true → handW.is_player_all_in i = false →
          handW.has_player_acted i = true)) ∧
    (player_action tableW handW seatW (.Raise 30) 5 = .ok (handWR, seatWR) ∧
      handW.current_bet < handWR.current_bet ∧
      (handWR.has_player_acted seatW.seat_index = true ∧
        ∀ j, j ≠ seatW.seat_index → handWR.has_player_acted j = false)) :=
  ⟨⟨by decide, by decide,
      (betting_complete_iff_and_raise_resets_acted.1 handW (by decide) (by decide))⟩,
    ⟨by rfl, by decide,
      betting_complete_iff_and_raise_resets_acted.2 tableW handW seatW (.Raise 30) 5 handWR
        seatWR (.inr ⟨30, rfl⟩) (by rfl) (by decide)⟩⟩

/-! Claim C3: fold reducing the hand to one active player. -/

theorem advance_to_next_phase_phase (h : HandState) :
    (advance_to_next_phase h).phase =
      if h.phase = GamePhase.River then GamePhase.Showdown else h.phase := by
  unfold advance_to_next_phase
  split <;> simp_all

theorem run_out_action_phase (h : HandState) :
    (run_out_to_showdown_action h).phase =
      if h.phase = GamePhase.River then GamePhase.Showdown else h.phase := by
  unfold run_out_to_showdown_action
  split <;> simp_all

theorem post_action_phase_settled (t : TableS) (h : HandState) (s : PlayerSeat) (now : Int)
    (hp : h.phase = GamePhase.Settled) : (post_action t h s now).1.phase = GamePhase.Settled := by
  unfold post_action
  dsimp only
  repeat' split
  all_goals
    simp_all [HandState.mark_acted, HandState.mark_all_in, advance_to_next_phase_phase,
      run_out_action_phase]

theorem advance_to_next_phase_active_count (h : HandState) :
    (advance_to_next_phase h).active_count = h.active_count := by
  unfold advance_to_next_phase
  split <;> rfl

theorem run_out_action_active_count (h : HandState) :
    (run_out_to_showdown_action h).active_count = h.active_count := by
  unfold run_out_to_showdown_action
  split <;> rfl

theorem post_action_active_count (t : TableS) (h : HandState) (s : PlayerSeat) (now : Int) :
    (post_action t h s now).1.active_count = h.active_count := by
  unfold post_action
  dsimp only
  repeat' split
  all_goals
    simp_all [HandState.mark_acted, HandState.mark_all_in, advance_to_next_phase_active_count,
      run_out_action_active_count]

theorem advance_phase_with_cards_active_count (h : HandState) (deck : List Nat) (maxp : Nat) :
    (advance_phase_with_cards h deck maxp).active_count = h.active_count := by
  unfold advance_phase_with_cards
  dsimp only
  split <;> rfl

theorem run_out_timeout_active_count (h : HandState) (deck : List Nat) :
    (run_out_to_showdown_timeout h deck).active_count = h.active_count := by
  unfold run_out_to_showdown_timeout
  dsimp only
  split <;> rfl

/-- Counterexample for C3: a forced fold through the action-timeout entry
point that leaves one active player sets the phase to Showdown, not Settled
(timeout_player.rs line 127), refuting the claim for the timeout path. -/
theorem timeout_fold_to_one_not_settled :
    (timeout_player tableW handW [51, 50, 49, 48, 47] seatW 100 =
      .ok ({ phase := GamePhase.Showdown, pot := 30, current_bet := 10, min_raise := 10,
             dealer_position := 0, action_on := 0,
             community_cards := [255, 255, 255, 255, 255], community_revealed := 0,
             active_players := 2, acted_this_round := 2, active_count := 1,
             all_in_players := 0, awaiting_community_reveal := false,
             last_action_time := 100 },
           { seatW with status := PlayerStatus.Folded })) ∧
    seatW.current_bet < handW.current_bet ∧
    ¬ (∀ hand1 : HandState, ∀ seat1 : PlayerSeat,
        timeout_player tableW handW [51, 50, 49, 48, 47] seatW 100 = .ok (hand1, seat1) →
        hand1.active_count = 1 → hand1.phase = GamePhase.Settled) := by
  refine ⟨by rfl, by decide, fun hclaim => ?_⟩
  have := hclaim _ _ (by rfl) (by decide)
  exact absurd this (by decide)

set_option maxHeartbeats 1000000 in
/-- C3 (amended): a voluntary Fold action that reduces `active_count` to 1
immediately sets the phase to Settled; the forced default fold applied by the
action-timeout entry point instead sets the phase to Showdown (the remaining
player is then paid the whole pot by settlement without hand evaluation —
see C2/C6's settlement model). -/
theorem fold_to_one_phase :
    (∀ (table : TableS) (hand : HandState) (seat : PlayerSeat) (now : Int)
        (hand1 : HandState) (seat1 : PlayerSeat),
      player_action table hand seat .Fold now = .ok (hand1, seat1) →
      hand1.active_count = 1 → hand1.phase = GamePhase.Settled) ∧
    (∀ (table : TableS) (hand : HandState) (deck : List Nat) (seat : PlayerSeat) (now : Int)
        (hand1 : HandState) (seat1 : PlayerSeat),
      timeout_player table hand deck seat now = .ok (hand1, seat1) →
      seat.current_bet < hand.current_bet →
      hand1.active_count = 1 → hand1.phase = GamePhase.Showdown) := by
  constructor
  · intro table hand seat now hand1 seat1 hok hcount
    unfold player_action at hok
    split at hok
    · exact Except.noConfusion hok
    split at hok
    · exact Except.noConfusion hok
    split at hok
    · exact Except.noConfusion hok
    split at hok
    · exact Except.noConfusion hok
    split at hok
    · exact Except.noConfusion hok
    dsimp only at hok
    injection hok with hok
    by_cases h1 : (hand.fold_player seat.seat_index).active_count = 1
    · rw [if_pos h1] at hok
      have := post_action_phase_settled table
        { hand.fold_player seat.seat_index with phase := GamePhase.Settled } seat.fold now rfl
      rw [hok] at this
      exact this
    · rw [if_neg h1] at hok
      have := post_action_active_count table (hand.fold_player seat.seat_index) seat.fold now
      rw [hok] at this
      rw [hcount] at this
      exact absurd this.symm h1
  · intro table hand deck seat now hand1 seat1 hok hbet hcount
    unfold timeout_player at hok
    split at hok
    · exact Except.noConfusion hok
    split at hok
    · exact Except.noConfusion hok
    split at hok
    · exact Except.noConfusion hok
    split at hok
    · exact Except.noConfusion hok
    split at hok
    · exact Except.noConfusion hok
    split at hok
    · exact Except.noConfusion hok
    dsimp only at hok
    have hcc : ¬ (decide (hand.current_bet ≤ seat.current_bet) = true) := by
      simp only [decide_eq_true_eq]
      omega
    rw [if_neg hcc] at hok
    dsimp only at hok
    by_cases h1 : ({ hand.fold_player seat.seat_index with
        last_action_time := now } : HandState).active_count = 1
    · rw [if_pos h1] at hok
      injection hok with hok
      injection hok with hok1 hok2
      rw [← hok1]
    · rw [if_neg h1] at hok
      exfalso
      apply h1
      repeat' split at hok
      all_goals
        injection hok with hok
      all_goals
        injection hok with hok1 hok2
      all_goals
        rw [← hok1] at hcount
      all_goals
        simp only [advance_phase_with_cards_active_count,
          run_out_timeout_active_count] at hcount
      all_goals
        exact hcount

/-- Hand state after the voluntary fold of `seatW` from `handW`. -/
def handWF : HandState :=
  { handW with phase := GamePhase.Settled, active_players := 2, acted_this_round := 3,
               active_count := 1, awaiting_community_reveal := true, last_action_time := 5 }

/-- Hand state after the timeout fold of `seatW` from `handW`. -/
def handWT : HandState :=
  { handW with phase := GamePhase.Showdown, active_players := 2, active_count := 1,
               last_action_time := 100 }

/-- Witness for C3 at concrete states: a voluntary fold from `handW` leaves
one active player and phase Settled; the timeout fold from the same state
leaves phase Showdown. -/
theorem fold_to_one_phase_witness :
    (player_action tableW handW seatW .Fold 5 =
        .ok (handWF, { seatW with status := PlayerStatus.Folded, has_acted := true }) ∧
      handWF.phase = GamePhase.Settled) ∧
    (seatW.current_bet < handW.current_bet ∧
      timeout_player tableW handW [51, 50, 49, 48, 47] seatW 100 =
        .ok (handWT, { seatW with status := PlayerStatus.Folded }) ∧
      handWT.phase = GamePhase.Showdown) :=
  ⟨⟨by rfl, fold_to_one_phase.1 tableW handW seatW 5 _ _ (by rfl) (by decide)⟩,
    ⟨by decide, by rfl,
      fold_to_one_phase.2 tableW handW [51, 50, 49, 48, 47] seatW 100 _ _ (by rfl)
        (by decide) (by decide)⟩⟩

/-! Claim C4: settlement rejects when a contesting seat has not revealed. -/

theorem award_chips_contesting (hand : HandState) (s : PlayerSeat) (x : Nat) :
    contesting hand (s.award_chips x) = contesting hand s := rfl

theorem award_chips_cards_revealed (s : PlayerSeat) (x : Nat) :
    (s.award_chips x).cards_revealed = s.cards_revealed := rfl

/-- The side-pot refund stage changes only chip counts, so the set of
contesting-but-unrevealed seats is unchanged by it. -/
theorem refund_any_unrevealed (hand : HandState) (pot : Nat) (seats : List PlayerSeat) :
    ((showdown_refund hand pot seats).2.any fun s => contesting hand s && !s.cards_revealed) =
      (seats.any fun s => contesting hand s && !s.cards_revealed) := by
  unfold showdown_refund
  dsimp only
  split
  · rw [List.any_map]
    congr 1
    funext s
    dsimp only [Function.comp]
    split <;> rfl
  · rfl

/-- C4: if settlement runs with more than one seat still active and some
contesting (status-active and in the active bitmask) seat has not revealed
its hole cards, the handler returns the `PlayersNotRevealed` rejection.  In
this embedding an `.error` result carries no state — exactly the Solana
rollback of every account write of a failed instruction — so the Hand/Seat
state is unchanged and in particular the side-pot refunds written earlier in
the same settlement pass are not retained. -/
theorem showdown_unrevealed_rejected (table : TableS) (hand : HandState)
    (seats : List PlayerSeat) (now : Int)
    (hphase : hand.phase = GamePhase.Showdown)
    (hcomm : (hand.community_cards.filter (· ≠ 255)).length = 5)
    (hac : 1 < hand.active_count)
    (hunrev : ∃ s ∈ seats, contesting hand s = true ∧ s.cards_revealed = false) :
    showdown table hand seats true now = .error .PlayersNotRevealed := by
  unfold showdown
  rw [if_neg (by simp)]
  rw [if_neg (by simp [hphase])]
  rw [if_neg (not_not_intro (Or.inl hcomm))]
  dsimp only
  rw [if_pos]
  refine ⟨hac, ?_⟩
  rw [refund_any_unrevealed]
  rw [List.any_eq_true]
  obtain ⟨s, hs, hcon, hrev⟩ := hunrev
  exact ⟨s, hs, by simp [hcon, hrev]⟩

/-- Concrete showdown hand state: phase Showdown, pot 101, a broadway-straight
board, seats 0 and 1 contesting. -/
def handSW : HandState :=
  { phase := .Showdown, pot := 101, current_bet := 0, min_raise := 10, dealer_position := 0,
    action_on := 0, community_cards := [12, 24, 36, 48, 8], community_revealed := 5,
    active_players := 3, acted_this_round := 0, active_count := 2, all_in_players := 0,
    awaiting_community_reveal := false, last_action_time := 0 }

/-- Concrete contesting seat 0 with revealed hole cards 2h 3d. -/
def seatSA : PlayerSeat :=
  { seat_index := 0, chips := 100, current_bet := 0, total_bet_this_hand := 50,
    hole_card_1 := 0, hole_card_2 := 14, status := .Playing, has_acted := true,
    cards_revealed := true, revealed_card_1 := 0, revealed_card_2 := 14 }

/-- Concrete contesting seat 1 with revealed hole cards 4h 4d. -/
def seatSB : PlayerSeat :=
  { seat_index := 1, chips := 200, current_bet := 0, total_bet_this_hand := 50,
    hole_card_1 := 2, hole_card_2 := 15, status := .Playing, has_acted := true,
    cards_revealed := true, revealed_card_1 := 2, revealed_card_2 := 15 }

/-- Witness for C4: a concrete settlement attempt with seat 0 unrevealed. -/
theorem showdown_unrevealed_rejected_witness :
    handSW.phase = GamePhase.Showdown ∧
      (handSW.community_cards.filter (· ≠ 255)).length = 5 ∧
      1 < handSW.active_count ∧
      (∃ s ∈ [seatSB, { seatSA with cards_revealed := false }],
        contesting handSW s = true ∧ s.cards_revealed = false) ∧
      showdown tableW handSW [seatSB, { seatSA with cards_revealed := false }] true 0 =
        .error .PlayersNotRevealed :=
  ⟨by decide, by decide, by decide, by decide,
    showdown_unrevealed_rejected tableW handSW _ 0 (by decide) (by decide) (by decide)
      (by decide)⟩

/-! Claim C9: the AllIn-implies-zero-chips seat invariant. -/

theorem place_bet_drain (s : PlayerSeat) (amount : Nat) :
    (s.place_bet amount).1.chips = 0 → (s.place_bet amount).1.status = PlayerStatus.AllIn := by
  unfold PlayerSeat.place_bet
  dsimp only
  split
  · intro _; rfl
  · rename_i hc
    intro h0
    exact absurd h0 hc

theorem place_bet_inv (s : PlayerSeat) (amount : Nat)
    (hpre : s.status = PlayerStatus.AllIn → s.chips = 0) :
    (s.place_bet amount).1.status = PlayerStatus.AllIn → (s.place_bet amount).1.chips = 0 := by
  unfold PlayerSeat.place_bet
  dsimp only
  split
  · rename_i hc
    intro _
    exact hc
  · intro hA
    have h0 := hpre hA
    simp [h0]

theorem post_action_seat (t : TableS) (h : HandState) (s : PlayerSeat) (now : Int) :
    (post_action t h s now).2 = { s with has_acted := true } := by
  unfold post_action
  dsimp only
  repeat' split
  all_goals rfl

/-- Helper: player_action preserves the AllIn-implies-broke invariant on the
acting seat. -/
theorem player_action_inv (table : TableS) (hand : HandState) (seat : PlayerSeat)
    (act : Action) (now : Int) (hand1 : HandState) (seat1 : PlayerSeat)
    (hok : player_action table hand seat act now = .ok (hand1, seat1))
    (hpre : seat.status = PlayerStatus.AllIn → seat.chips = 0) :
    seat1.status = PlayerStatus.AllIn → seat1.chips = 0 := by
  unfold player_action at hok
  split at hok
  · exact Except.noConfusion hok
  split at hok
  · exact Except.noConfusion hok
  split at hok
  · exact Except.noConfusion hok
  split at hok
  · exact Except.noConfusion hok
  split at hok
  · exact Except.noConfusion hok
  dsimp only at hok
  have hseat : ∀ (h0 : HandState) (s0 : PlayerSeat),
      post_action table h0 s0 now = (hand1, seat1) →
      (s0.status = PlayerStatus.AllIn → s0.chips = 0) →
      seat1.status = PlayerStatus.AllIn → seat1.chips = 0 := by
    intro h0 s0 hpa hinv
    have := congrArg (fun p => p.2) hpa
    dsimp only at this
    rw [post_action_seat] at this
    rw [← this]
    exact hinv
  rcases act with _ | _ | _ | amount | _ <;> dsimp only at hok
  · -- Fold
    injection hok with hok
    exact hseat _ _ hok (by intro hA; exact absurd hA (by simp [PlayerSeat.fold]))
  · -- Check
    split at hok
    · exact Except.noConfusion hok
    rename_i step hs heq
    split at heq
    · exact Except.noConfusion heq
    injection heq with heq
    subst heq
    dsimp only at hok
    injection hok with hok
    exact hseat _ _ hok hpre
  · -- Call
    split at hok
    · exact Except.noConfusion hok
    rename_i step hs heq
    split at heq
    · exact Except.noConfusion heq
    injection heq with heq
    subst heq
    dsimp only at hok
    injection hok with hok
    exact hseat _ _ hok (place_bet_inv seat _ hpre)
  · -- Raise
    split at hok
    · exact Except.noConfusion hok
    rename_i step hs heq
    split at heq
    · exact Except.noConfusion heq
    injection heq with heq
    subst heq
    dsimp only at hok
    injection hok with hok
    exact hseat _ _ hok (place_bet_inv seat _ hpre)
  · -- AllIn
    injection hok with hok
    exact hseat _ _ hok (place_bet_inv seat _ hpre)

/-- Helper: timeout_player preserves the AllIn-implies-broke invariant on the
subject seat (the forced action is a Check or a Fold, neither moving chips). -/
theorem timeout_player_inv (table : TableS) (hand : HandState) (deck : List Nat)
    (seat : PlayerSeat) (now : Int) (hand1 : HandState) (seat1 : PlayerSeat)
    (hok : timeout_player table hand deck seat now = .ok (hand1, seat1))
    (hpre : seat.status = PlayerStatus.AllIn → seat.chips = 0) :
    seat1.status = PlayerStatus.AllIn → seat1.chips = 0 := by
  unfold timeout_player at hok
  split at hok
  · exact Except.noConfusion hok
  split at hok
  · exact Except.noConfusion hok
  split at hok
  · exact Except.noConfusion hok
  split at hok
  · exact Except.noConfusion hok
  split at hok
  · exact Except.noConfusion hok
  split at hok
  · exact Except.noConfusion hok
  dsimp only at hok
  rename_i hstat _
  have hplay : seat.status = PlayerStatus.Playing := by
    by_contra hne
    exact hstat hne
  have hs1 : seat1 = { seat with has_acted := true } ∨
      seat1 = { seat with status := PlayerStatus.Folded } := by
    by_cases hcc : (decide (hand.current_bet ≤ seat.current_bet)) = true
    · rw [if_pos hcc] at hok
      dsimp only at hok
      split at hok
      · injection hok with hok
        injection hok with hok1 hok2
        exact .inl hok2.symm
      · repeat' split at hok
        all_goals
          injection hok with hok
        all_goals
          injection hok with hok1 hok2
        all_goals
          exact .inl hok2.symm
    · rw [if_neg hcc] at hok
      dsimp only at hok
      split at hok
      · injection hok with hok
        injection hok with hok1 hok2
        exact .inr hok2.symm
      · repeat' split at hok
        all_goals
          injection hok with hok
        all_goals
          injection hok with hok1 hok2
        all_goals
          exact .inr hok2.symm
  rcases hs1 with rfl | rfl
  · intro hA
    have hA' : seat.status = PlayerStatus.AllIn := hA
    rw [hplay] at hA'
    exact absurd hA' (by simp)
  · intro hA
    have hA' : PlayerStatus.Folded = PlayerStatus.AllIn := hA
    exact absurd hA' (by simp)

/-- Helper: settlement returns every validated seat with status Sitting. -/
theorem showdown_resets_to_sitting (table : TableS) (hand : HandState)
    (seats : List PlayerSeat) (is_authority : Bool) (now : Int) (t1 : TableS)
    (h1 : HandState) (seats1 : List PlayerSeat)
    (hok : showdown table hand seats is_authority now = .ok (t1, h1, seats1)) :
    ∀ s ∈ seats1, s.status = PlayerStatus.Sitting := by
  unfold showdown at hok
  dsimp only at hok
  repeat' (first | (split at hok) | (dsimp only at hok))
  all_goals try exact Except.noConfusion hok
  all_goals
    injection hok with hok
  all_goals
    injection hok with hok1 hok
  all_goals
    injection hok with hok2 hok3
  all_goals
    intro s hs
  all_goals
    rw [← hok3] at hs
  all_goals
    obtain ⟨x, _, rfl⟩ := List.mem_map.mp hs
  all_goals
    rfl

/-- C9: the seat invariant `status = AllIn → chips = 0` holds after every
complete engine operation: `place_bet` marks a drained stack AllIn and
preserves the invariant, `award_chips` adds chips without touching status,
the player-action and timeout handlers keep the invariant on the acting
seat, and settlement resets every participating seat to Sitting (making the
invariant vacuous) before returning. -/
theorem all_in_implies_broke_invariant :
    (∀ (s : PlayerSeat) (amount : Nat),
      ((s.place_bet amount).1.chips = 0 → (s.place_bet amount).1.status = PlayerStatus.AllIn) ∧
      ((s.status = PlayerStatus.AllIn → s.chips = 0) →
        (s.place_bet amount).1.status = PlayerStatus.AllIn → (s.place_bet amount).1.chips = 0)) ∧
    (∀ (s : PlayerSeat) (amount : Nat),
      (s.award_chips amount).status = s.status ∧
        (s.award_chips amount).chips = satAdd s.chips amount) ∧
    (∀ (table : TableS) (hand : HandState) (seat : PlayerSeat) (act : Action) (now : Int)
        (hand1 : HandState) (seat1 : PlayerSeat),
      player_action table hand seat act now = .ok (hand1, seat1) →
      (seat.status = PlayerStatus.AllIn → seat.chips = 0) →
      seat1.status = PlayerStatus.AllIn → seat1.chips = 0) ∧
    (∀ (table : TableS) (hand : HandState) (deck : List Nat) (seat : PlayerSeat) (now : Int)
        (hand1 : HandState) (seat1 : PlayerSeat),
      timeout_player table hand deck seat now = .ok (hand1, seat1) →
      (seat.status = PlayerStatus.AllIn → seat.chips = 0) →
      seat1.status = PlayerStatus.AllIn → seat1.chips = 0) ∧
    (∀ (table : TableS) (hand : HandState) (seats : List PlayerSeat) (is_authority : Bool)
        (now : Int) (t1 : TableS) (h1 : HandState) (seats1 : List PlayerSeat),
      showdown table hand seats is_authority now = .ok (t1, h1, seats1) →
      ∀ s ∈ seats1, s.status = PlayerStatus.Sitting ∧
        (s.status = PlayerStatus.AllIn → s.chips = 0)) :=
  ⟨fun s amount => ⟨place_bet_drain s amount, place_bet_inv s amount⟩,
    fun s amount => ⟨rfl, rfl⟩,
    fun table hand seat act now hand1 seat1 =>
      player_action_inv table hand seat act now hand1 seat1,
    fun table hand deck seat now hand1 seat1 =>
      timeout_player_inv table hand deck seat now hand1 seat1,
    fun table hand seats is_authority now t1 h1 seats1 hok s hs =>
      ⟨showdown_resets_to_sitting table hand seats is_authority now t1 h1 seats1 hok s hs,
        fun hA => absurd hA (by
          rw [showdown_resets_to_sitting table hand seats is_authority now t1 h1 seats1 hok s hs]
          simp)⟩⟩

/-- Table state after the concrete settlement of `handSW`. -/
def tableSWR : TableS := ⟨.Waiting, 6, 0⟩

/-- Hand state after the concrete settlement of `handSW`. -/
def handSWR : HandState := { handSW with phase := .Settled, pot := 0 }

/-- Seat 1 after the concrete settlement: first-listed tied winner, paid
share 50 plus remainder 1, then reset. -/
def seatSBR : PlayerSeat :=
  { seat_index := 1, chips := 251, current_bet := 0, total_bet_this_hand := 0,
    hole_card_1 := 255, hole_card_2 := 255, status := .Sitting, has_acted := false,
    cards_revealed := false, revealed_card_1 := 255, revealed_card_2 := 255 }

/-- Seat 0 after the concrete settlement: lowest-indexed tied winner, paid
share 50 only, then reset. -/
def seatSAR : PlayerSeat :=
  { seat_index := 0, chips := 150, current_bet := 0, total_bet_this_hand := 0,
    hole_card_1 := 255, hole_card_2 := 255, status := .Sitting, has_acted := false,
    cards_revealed := false, revealed_card_1 := 255, revealed_card_2 := 255 }

/-- Witness for C9: the invariant facts at concrete seats and a concrete
settlement run. -/
theorem all_in_implies_broke_invariant_witness :
    (((seatW.place_bet 100).1.chips = 0 →
        (seatW.place_bet 100).1.status = PlayerStatus.AllIn) ∧
      ((seatW.status = PlayerStatus.AllIn → seatW.chips = 0) ∧
        ((seatW.place_bet 100).1.status = PlayerStatus.AllIn →
          (seatW.place_bet 100).1.chips = 0))) ∧
    (player_action tableW handW seatW (.Raise 30) 5 = .ok (handWR, seatWR) ∧
      (seatWR.status = PlayerStatus.AllIn → seatWR.chips = 0)) ∧
    (showdown tableW handSW [seatSB, seatSA] true 0 = .ok (tableSWR, handSWR, [seatSBR, seatSAR]) ∧
      ∀ s ∈ [seatSBR, seatSAR], s.status = PlayerStatus.Sitting) := by
  refine ⟨⟨(all_in_implies_broke_invariant.1 seatW 100).1,
      by decide, (all_in_implies_broke_invariant.1 seatW 100).2 (by decide)⟩,
    ⟨by rfl, all_in_implies_broke_invariant.2.2.1 tableW handW seatW (.Raise 30) 5 handWR seatWR
      (by rfl) (by decide)⟩, by rfl, ?_⟩
  intro s hs
  exact (all_in_implies_broke_invariant.2.2.2.2 tableW handSW [seatSB, seatSA] true 0
    tableSWR handSWR [seatSBR, seatSAR] (by rfl) s hs).1

/-! Claim C6: the side-pot excess refund stage. -/

theorem foldl_sub_eq (m : Nat) : ∀ (l : List Nat) (p : Nat),
    l.foldl (fun p b => p - (b - m)) p = p - (l.map (fun b => b - m)).sum
  | [], p => by simp
  | b :: rest, p => by
    simp only [List.foldl_cons, List.map_cons, List.sum_cons]
    rw [foldl_sub_eq m rest]
    omega

/-- Helper (shared by C6 and C2): exact description of `showdown_refund` when
at least two seats contest, the pot covers the total excess, and no chip
count saturates. -/
theorem showdown_refund_spec (hand : HandState) (pot : Nat) (seats : List PlayerSeat)
    (bets : List Nat) (min_bet : Nat)
    (hbets : bets = (seats.filter (contesting hand)).map (·.total_bet_this_hand))
    (hmin : min_bet = bets.min?.getD 0)
    (h2 : 2 ≤ bets.length)
    (hpot : (bets.map (fun b => b - min_bet)).sum ≤ pot)
    (hsat : ∀ s ∈ seats, s.chips + (s.total_bet_this_hand - min_bet) ≤ U64MAX) :
    (showdown_refund hand pot seats).1 + (bets.map (fun b => b - min_bet)).sum = pot ∧
    (showdown_refund hand pot seats).2 = seats.map (fun s =>
      if contesting hand s && decide (min_bet < s.total_bet_this_hand) then
        { s with chips := s.chips + (s.total_bet_this_hand - min_bet) }
      else s) := by
  subst hmin
  subst hbets
  unfold showdown_refund
  dsimp only
  rw [if_pos h2]
  constructor
  · dsimp only
    rw [foldl_sub_eq]
    omega
  · dsimp only
    apply List.map_congr_left
    intro s hs
    by_cases hc : (contesting hand s &&
        decide ((((seats.filter (contesting hand)).map
          (·.total_bet_this_hand)).min?.getD 0) < s.total_bet_this_hand)) = true
    · rw [if_pos hc, if_pos hc]
      unfold PlayerSeat.award_chips satAdd
      rw [Nat.min_eq_left (hsat s hs)]
    · rw [if_neg hc, if_neg hc]

/-- C6: when at least two contesting (non-folded) seats reach settlement,
each contesting seat whose `total_bet_this_hand` exceeds the minimum among
them is refunded exactly that excess onto its chip stack, seats at the
minimum are unchanged, and the pot drops by exactly the total refunded —
all before winners are determined (`showdown` runs `find_winners` only on
the output of this stage). -/
theorem refund_excess_exact (hand : HandState) (pot : Nat) (seats : List PlayerSeat)
    (bets : List Nat) (min_bet : Nat)
    (hbets : bets = (seats.filter (contesting hand)).map (·.total_bet_this_hand))
    (hmin : min_bet = bets.min?.getD 0)
    (h2 : 2 ≤ bets.length)
    (hpot : (bets.map (fun b => b - min_bet)).sum ≤ pot)
    (hsat : ∀ s ∈ seats, s.chips + (s.total_bet_this_hand - min_bet) ≤ U64MAX) :
    (showdown_refund hand pot seats).1 + (bets.map (fun b => b - min_bet)).sum = pot ∧
    (showdown_refund hand pot seats).2 = seats.map (fun s =>
      if contesting hand s && decide (min_bet < s.total_bet_this_hand) then
        { s with chips := s.chips + (s.total_bet_this_hand - min_bet) }
      else s) :=
  showdown_refund_spec hand pot seats bets min_bet hbets hmin h2 hpot hsat

/-- Concrete all-in-runout hand for the C6 witness: pot 1500, both seats
all-in with total bets 500 and 1000. -/
def handRF : HandState := { handSW with pot := 1500, all_in_players := 3 }

/-- Concrete all-in seat 0 with total bet 500. -/
def seatRA : PlayerSeat :=
  { seatSA with total_bet_this_hand := 500, chips := 0, status := .AllIn }

/-- Concrete all-in seat 1 with total bet 1000. -/
def seatRB : PlayerSeat :=
  { seatSB with total_bet_this_hand := 1000, chips := 0, status := .AllIn }

/-- Witness for C6: the spec's all-in-runout scenario (unequal stacks 500 vs
1000): the larger bettor is refunded 500 before the pot is split. -/
theorem refund_excess_exact_witness :
    ([500, 1000] = (([seatRA, seatRB].filter (contesting handRF)).map
        (·.total_bet_this_hand)) ∧
      2 ≤ ([500, 1000] : List Nat).length ∧
      (([500, 1000] : List Nat).map (fun b => b - 500)).sum ≤ 1500) ∧
    (showdown_refund handRF 1500 [seatRA, seatRB]).1 +
        (([500, 1000] : List Nat).map (fun b => b - 500)).sum = 1500 ∧
    (showdown_refund handRF 1500 [seatRA, seatRB]).2 = [seatRA, seatRB].map (fun s =>
      if contesting handRF s && decide (500 < s.total_bet_this_hand) then
        { s with chips := s.chips + (s.total_bet_this_hand - 500) }
      else s) :=
  ⟨⟨by decide, by decide, by decide⟩,
    refund_excess_exact handRF 1500 [seatRA, seatRB] [500, 1000] 500 (by decide) (by decide)
      (by decide) (by decide) (by decide)⟩

/-! Claim C2: structure of the winner list and the payout distribution. -/

theorem winnersFold_sublist : ∀ (pcs : List (Nat × List Nat))
    (acc : Option EvaluatedHand × List Nat) (pre : List Nat),
    acc.2.Sublist pre → ((pcs.foldl winnersStep acc).2).Sublist (pre ++ pcs.map Prod.fst)
  | [], acc, pre, hsub => by simpa using hsub
  | pc :: rest, acc, pre, hsub => by
    simp only [List.foldl_cons, List.map_cons]
    have hstep : (winnersStep acc pc).2.Sublist (pre ++ [pc.1]) := by
      unfold winnersStep
      rcases acc with ⟨b, ws⟩
      rcases b with _ | b
      · exact List.sublist_append_right pre [pc.1]
      · dsimp only
        cases hcmp : (evaluate_hand pc.2).compare b
        all_goals simp only [hcmp]
        · exact hsub.trans (List.sublist_append_left pre [pc.1])
        · exact hsub.append (List.Sublist.refl [pc.1])
        · exact List.sublist_append_right pre [pc.1]
    have hrec := winnersFold_sublist rest (winnersStep acc pc) (pre ++ [pc.1]) hstep
    simpa [List.append_assoc] using hrec

/-- The winner list is a sublist of the seat indexes fed to `find_winners`,
in order; in particular it inherits their distinctness. -/
theorem find_winners_sublist (pcs : List (Nat × List Nat)) :
    (find_winners pcs).Sublist (pcs.map Prod.fst) := by
  have h := winnersFold_sublist pcs (none, []) [] (by simp)
  simpa using h

theorem winnersFold_ne_nil : ∀ (pcs : List (Nat × List Nat))
    (acc : Option EvaluatedHand × List Nat),
    acc.1.isSome = true → acc.2 ≠ [] → (pcs.foldl winnersStep acc).2 ≠ []
  | [], _, _, hne => hne
  | pc :: rest, acc, hsome, hne => by
    simp only [List.foldl_cons]
    apply winnersFold_ne_nil rest
    · unfold winnersStep
      rcases acc with ⟨b, ws⟩
      rcases b with _ | b
      · rfl
      · dsimp only
        cases hcmp : (evaluate_hand pc.2).compare b
        all_goals simp [hcmp]
    · unfold winnersStep
      rcases acc with ⟨b, ws⟩
      rcases b with _ | b
      · simp
      · dsimp only
        cases hcmp : (evaluate_hand pc.2).compare b
        all_goals simp [hcmp]
        exact hne

/-- `find_winners` of a nonempty player list is nonempty. -/
theorem find_winners_ne_nil (pc : Nat × List Nat) (rest : List (Nat × List Nat)) :
    find_winners (pc :: rest) ≠ [] := by
  unfold find_winners
  simp only [List.foldl_cons]
  exact winnersFold_ne_nil rest (winnersStep (none, []) pc) rfl (by simp [winnersStep])

theorem activeIdx_tail {s : PlayerSeat} {rest : List PlayerSeat}
    (hnd : ((((s :: rest).filter statusActive)).map (·.seat_index)).Nodup) :
    (((rest.filter statusActive)).map (·.seat_index)).Nodup := by
  by_cases h : statusActive s = true
  · rw [List.filter_cons_of_pos (by simpa using h), List.map_cons] at hnd
    exact hnd.of_cons
  · rw [List.filter_cons_of_neg (by simpa using h)] at hnd
    exact hnd

theorem activeIdx_head_not_mem {s : PlayerSeat} {rest : List PlayerSeat}
    (hs : statusActive s = true)
    (hnd : ((((s :: rest).filter statusActive)).map (·.seat_index)).Nodup) :
    s.seat_index ∉ ((rest.filter statusActive)).map (·.seat_index) := by
  rw [List.filter_cons_of_pos (by simpa using hs), List.map_cons] at hnd
  exact (List.nodup_cons.mp hnd).1

/-- Closed form of `award_to_seat`: with distinct status-active seat indexes
and no chip saturation, it adds `amt` to the chips of exactly the matching
status-active seat and leaves everything else unchanged. -/
theorem award_to_seat_eq_map (idx amt : Nat) : ∀ (seats : List PlayerSeat),
    (((seats.filter statusActive)).map (·.seat_index)).Nodup →
    (∀ s ∈ seats, statusActive s = true → s.seat_index = idx → s.chips + amt ≤ U64MAX) →
    award_to_seat idx amt seats = seats.map (fun s =>
      if statusActive s && s.seat_index == idx then { s with chips := s.chips + amt } else s)
  | [], _, _ => rfl
  | s :: rest, hnd, hsat => by
    simp only [award_to_seat, List.map_cons]
    by_cases hc : (statusActive s && s.seat_index == idx) = true
    · rw [if_pos hc, if_pos hc]
      have hcs := (Bool.and_eq_true _ _).mp hc
      have hidx : s.seat_index = idx := by simpa using hcs.2
      congr 1
      · unfold PlayerSeat.award_chips satAdd
        rw [Nat.min_eq_left (hsat s (by simp) hcs.1 hidx)]
      · have hrest : ∀ t ∈ rest,
            (if statusActive t && t.seat_index == idx then
              { t with chips := t.chips + amt } else t) = t := by
          intro t ht
          rw [if_neg]
          intro hct
          have hcts := (Bool.and_eq_true _ _).mp hct
          have htidx : t.seat_index = idx := by simpa using hcts.2
          apply activeIdx_head_not_mem hcs.1 hnd
          rw [hidx, ← htidx]
          exact List.mem_map_of_mem _ (List.mem_filter.mpr ⟨ht, by simpa using hcts.1⟩)
        rw [List.map_congr_left hrest]
        exact (List.map_id rest).symm
    · rw [if_neg hc, if_neg hc]
      congr 1
      exact award_to_seat_eq_map idx amt rest (activeIdx_tail hnd)
        (fun t ht ha hx => hsat t (by simp [ht]) ha hx)

theorem activeIdx_map (g : PlayerSeat → PlayerSeat)
    (hg : ∀ s, statusActive (g s) = statusActive s ∧ (g s).seat_index = s.seat_index) :
    ∀ (seats : List PlayerSeat),
    (((seats.map g).filter statusActive)).map (·.seat_index) =
      ((seats.filter statusActive)).map (·.seat_index)
  | [] => rfl
  | s :: rest => by
    simp only [List.map_cons]
    by_cases h : statusActive s = true
    · rw [List.filter_cons_of_pos (by rw [(hg s).1]; exact h),
        List.filter_cons_of_pos (by exact h), List.map_cons, List.map_cons, (hg s).2,
        activeIdx_map g hg rest]
    · rw [List.filter_cons_of_neg (by rw [(hg s).1]; simpa using h),
        List.filter_cons_of_neg (by simpa using h), activeIdx_map g hg rest]

/-- Closed form of a fold of equal-amount awards over a duplicate-free winner
list: every status-active seat whose index is a winner gains exactly `share`. -/
theorem award_fold_eq_map (share : Nat) : ∀ (ws : List Nat) (seats : List PlayerSeat),
    ws.Nodup →
    (((seats.filter statusActive)).map (·.seat_index)).Nodup →
    (∀ s ∈ seats, statusActive s = true → s.seat_index ∈ ws → s.chips + share ≤ U64MAX) →
    ws.foldl (fun acc w => award_to_seat w share acc) seats = seats.map (fun s =>
      if statusActive s && decide (s.seat_index ∈ ws) then
        { s with chips := s.chips + share } else s)
  | [], seats, _, _, _ => by simp
  | w :: ws', seats, hndw, hnds, hsat => by
    simp only [List.foldl_cons]
    rw [award_to_seat_eq_map w share seats hnds
      (fun s hs ha hx => hsat s hs ha (by simp [hx]))]
    have hgpres : ∀ s : PlayerSeat,
        statusActive (if statusActive s && s.seat_index == w then
          { s with chips := s.chips + share } else s) = statusActive s ∧
        (if statusActive s && s.seat_index == w then
          { s with chips := s.chips + share } else s).seat_index = s.seat_index := by
      intro s
      split
      · exact ⟨rfl, rfl⟩
      · exact ⟨rfl, rfl⟩
    rw [award_fold_eq_map share ws' _ hndw.of_cons
      (by rw [activeIdx_map _ hgpres]; exact hnds) ?sat2]
    case sat2 =>
      intro t ht ha hin
      obtain ⟨s, hsmem, rfl⟩ := List.mem_map.mp ht
      by_cases hcw : (statusActive s && s.seat_index == w) = true
      · exfalso
        rw [if_pos hcw] at hin
        have hw : s.seat_index = w := by simpa using ((Bool.and_eq_true _ _).mp hcw).2
        rw [hw] at hin
        exact (List.nodup_cons.mp hndw).1 hin
      · rw [if_neg hcw] at ha hin ⊢
        exact hsat s hsmem ha (List.mem_cons_of_mem _ hin)
    rw [List.map_map]
    apply List.map_congr_left
    intro s hs
    dsimp only [Function.comp]
    by_cases ha : statusActive s = true
    · by_cases hw : s.seat_index = w
      · have hcw : (statusActive s && s.seat_index == w) = true := by simp [ha, hw]
        rw [if_pos hcw]
        have hnw : s.seat_index ∉ ws' := by rw [hw]; exact (List.nodup_cons.mp hndw).1
        rw [if_neg (by dsimp only; simp [ha, hnw]), if_pos (by simp [ha, hw])]
      · have hcw : ¬ (statusActive s && s.seat_index == w) = true := by simp [hw]
        rw [if_neg hcw]
        by_cases hin : s.seat_index ∈ ws'
        · rw [if_pos (by simp [ha, hin]), if_pos (by simp [ha, hin])]
        · rw [if_neg (by simp [hin]), if_neg (by simp [hw, hin])]
    · have hcw : ¬ (statusActive s && s.seat_index == w) = true := by simp [ha]
      rw [if_neg hcw, if_neg (by simp [ha]), if_neg (by simp [ha])]

theorem enumFrom_award_fold (share rem : Nat) : ∀ (ws : List Nat) (k : Nat)
    (seats : List PlayerSeat), 1 ≤ k →
    (ws.enumFrom k).foldl
      (fun acc iw => award_to_seat iw.2 (if iw.1 = 0 then share + rem else share) acc) seats =
    ws.foldl (fun acc w => award_to_seat w share acc) seats
  | [], _, _, _ => rfl
  | w :: ws', k, seats, hk => by
    simp only [List.enumFrom, List.foldl_cons]
    rw [if_neg (by omega)]
    exact enumFrom_award_fold share rem ws' (k + 1) _ (by omega)

/-- Closed form of the distribution loop: with a duplicate-free winner list,
distinct status-active seat indexes and no chip saturation, each
status-active winner seat receives `share`, the winner at the head of the
winner list receiving `share + remainder`. -/
theorem distribute_winnings_eq_map (seats : List PlayerSeat) (winners : List Nat)
    (share rem : Nat) (hndw : winners.Nodup)
    (hnds : (((seats.filter statusActive)).map (·.seat_index)).Nodup)
    (hsat : ∀ s ∈ seats, statusActive s = true → s.seat_index ∈ winners →
      s.chips + (share + rem) ≤ U64MAX) :
    distribute_winnings seats winners share rem = seats.map (fun s =>
      if statusActive s && decide (s.seat_index ∈ winners) then
        { s with chips := s.chips +
          (if winners.head? = some s.seat_index then share + rem else share) }
      else s) := by
  cases winners with
  | nil => simp [distribute_winnings]
  | cons w ws =>
    unfold distribute_winnings
    rw [List.enum_cons]
    simp only [List.foldl_cons]
    rw [if_pos trivial]
    rw [enumFrom_award_fold share rem ws 1 _ (by omega)]
    rw [award_to_seat_eq_map w (share + rem) seats hnds
      (fun s hs ha hx => hsat s hs ha (by simp [hx]))]
    have hgpres : ∀ s : PlayerSeat,
        statusActive (if statusActive s && s.seat_index == w then
          { s with chips := s.chips + (share + rem) } else s) = statusActive s ∧
        (if statusActive s && s.seat_index == w then
          { s with chips := s.chips + (share + rem) } else s).seat_index = s.seat_index := by
      intro s
      split
      · exact ⟨rfl, rfl⟩
      · exact ⟨rfl, rfl⟩
    rw [award_fold_eq_map share ws _ (List.nodup_cons.mp hndw).2
      (by rw [activeIdx_map _ hgpres]; exact hnds) ?sat2]
    case sat2 =>
      intro t ht ha hin
      obtain ⟨s, hsmem, rfl⟩ := List.mem_map.mp ht
      by_cases hcw : (statusActive s && s.seat_index == w) = true
      · exfalso
        rw [if_pos hcw] at hin
        have hw : s.seat_index = w := by simpa using ((Bool.and_eq_true _ _).mp hcw).2
        rw [hw] at hin
        exact (List.nodup_cons.mp hndw).1 hin
      · rw [if_neg hcw] at ha hin ⊢
        exact le_trans (by omega) (hsat s hsmem ha (List.mem_cons_of_mem _ hin))
    rw [List.map_map]
    apply List.map_congr_left
    intro s hs
    dsimp only [Function.comp]
    by_cases ha : statusActive s = true
    · by_cases hw : s.seat_index = w
      · have hcw : (statusActive s && s.seat_index == w) = true := by simp [ha, hw]
        rw [if_pos hcw]
        have hnw : s.seat_index ∉ ws := by rw [hw]; exact (List.nodup_cons.mp hndw).1
        rw [if_neg (by dsimp only; simp [ha, hnw]), if_pos (by simp [ha, hw])]
        rw [if_pos (by simp [hw])]
      · have hcw : ¬ (statusActive s && s.seat_index == w) = true := by simp [hw]
        rw [if_neg hcw]
        by_cases hin : s.seat_index ∈ ws
        · rw [if_pos (by simp [ha, hin]), if_pos (by simp [ha, hin])]
          rw [if_neg (by simp; omega)]
        · rw [if_neg (by simp [hin]), if_neg (by simp [hw, hin])]
    · have hcw : ¬ (statusActive s && s.seat_index == w) = true := by simp [ha]
      rw [if_neg hcw, if_neg (by simp [ha]), if_neg (by simp [ha])]

theorem filter_sublist_filter (p q : PlayerSeat → Bool)
    (h : ∀ a, p a = true → q a = true) : ∀ l : List PlayerSeat,
    (l.filter p).Sublist (l.filter q)
  | [] => List.Sublist.refl _
  | a :: l => by
    by_cases hp : p a = true
    · rw [List.filter_cons_of_pos (by simpa using hp),
        List.filter_cons_of_pos (by simpa using (h a hp))]
      exact (filter_sublist_filter p q h l).cons₂ a
    · rw [List.filter_cons_of_neg (by simpa using hp)]
      by_cases hq : q a = true
      · rw [List.filter_cons_of_pos (by simpa using hq)]
        exact (filter_sublist_filter p q h l).cons a
      · rw [List.filter_cons_of_neg (by simpa using hq)]
        exact filter_sublist_filter p q h l

/-- Counterexample for C2: a settlement of pot 101 between two tied winners
whose seat accounts are supplied in the order [seat 1, seat 0].  The
remainder chip goes to seat 1 — the winner listed first — not to seat 0, the
winner with the lowest seat index, refuting the claim as stated. -/
theorem split_remainder_not_lowest_seat :
    showdown tableW handSW [seatSB, seatSA] true 0 =
      .ok (tableSWR, handSWR, [seatSBR, seatSAR]) ∧
    find_winners [(1, seven_cards seatSB (handSW.community_cards.filter (· ≠ 255))),
      (0, seven_cards seatSA (handSW.community_cards.filter (· ≠ 255)))] = [1, 0] ∧
    seatSAR.seat_index = 0 ∧ seatSBR.seat_index = 1 ∧
    seatSAR.chips = seatSA.chips + handSW.pot / 2 ∧
    seatSBR.chips = seatSB.chips + handSW.pot / 2 + handSW.pot % 2 ∧
    ¬ seatSAR.chips = seatSA.chips + handSW.pot / 2 + handSW.pot % 2 :=
  ⟨by rfl, by decide, by decide, by decide, by decide, by decide, by decide⟩

/-- C2 (amended): at an evaluated showdown settlement with `winner_count ≥ 1`
tied winners, every status-active winner seat receives `share = pot /
winner_count`; the winner at the head of the winner list — the tied winner
whose seat account is listed first, which is the lowest seat index exactly
when the accounts are supplied in ascending seat order — additionally
receives `remainder = pot % winner_count`; `share * winner_count +
remainder` is exactly the pot after the side-pot refund, and that pot plus
the total refunded excess is exactly the pot at the start of settlement: no
chip is created or lost. -/
theorem showdown_split_and_conservation (table : TableS) (hand : HandState)
    (seats : List PlayerSeat) (now : Int) (pot1 : Nat) (seats1 : List PlayerSeat)
    (winners : List Nat) (share remainder : Nat) (bets : List Nat) (min_bet : Nat)
    (hrp : showdown_refund hand hand.pot seats = (pot1, seats1))
    (hphase : hand.phase = GamePhase.Showdown)
    (hcomm : (hand.community_cards.filter (· ≠ 255)).length = 5)
    (hac : 1 < hand.active_count)
    (hrev : ∀ s ∈ seats, contesting hand s = true → s.cards_revealed = true)
    (hwin : winners = find_winners ((seats1.filter (contesting hand)).map fun s =>
      (s.seat_index, seven_cards s (hand.community_cards.filter (· ≠ 255)))))
    (hw1 : 1 ≤ winners.length)
    (hshare : share = pot1 / winners.length)
    (hrem : remainder = pot1 % winners.length)
    (hnds : (((seats1.filter statusActive)).map (·.seat_index)).Nodup)
    (hsat : ∀ s ∈ seats1, statusActive s = true → s.seat_index ∈ winners →
      s.chips + (share + remainder) ≤ U64MAX)
    (hbets : bets = (seats.filter (contesting hand)).map (·.total_bet_this_hand))
    (hmin : min_bet = bets.min?.getD 0)
    (h2 : 2 ≤ bets.length)
    (hpot : (bets.map (fun b => b - min_bet)).sum ≤ hand.pot)
    (hsatR : ∀ s ∈ seats, s.chips + (s.total_bet_this_hand - min_bet) ≤ U64MAX) :
    showdown table hand seats true now =
      .ok ({ table with status := TableStatus.Waiting, last_ready_time := now },
           { hand with phase := GamePhase.Settled, pot := 0 },
           (distribute_winnings seats1 winners share remainder).map
             reset_seat_for_next_hand) ∧
    distribute_winnings seats1 winners share remainder = seats1.map (fun s =>
      if statusActive s && decide (s.seat_index ∈ winners) then
        { s with chips := s.chips +
          (if winners.head? = some s.seat_index then share + remainder else share) }
      else s) ∧
    share * winners.length + remainder = pot1 ∧
    pot1 + (bets.map (fun b => b - min_bet)).sum = hand.pot := by
  have hndw : winners.Nodup := by
    have hsub1 := find_winners_sublist ((seats1.filter (contesting hand)).map fun s =>
      (s.seat_index, seven_cards s (hand.community_cards.filter (· ≠ 255))))
    rw [← hwin, List.map_map] at hsub1
    have hsub2 : ((seats1.filter (contesting hand)).map
        (Prod.fst ∘ fun s => (s.seat_index,
          seven_cards s (hand.community_cards.filter (· ≠ 255))))).Sublist
        ((seats1.filter statusActive).map (·.seat_index)) := by
      have hf := filter_sublist_filter (contesting hand) statusActive
        (fun a ha => ((Bool.and_eq_true _ _).mp ha).1) seats1
      exact hf.map _
    exact ((hsub1.trans hsub2).nodup) hnds
  refine ⟨?_, distribute_winnings_eq_map seats1 winners share remainder hndw hnds hsat,
    ?_, ?_⟩
  · unfold showdown
    rw [if_neg (by simp)]
    rw [if_neg (not_not_intro (Or.inl hphase))]
    rw [if_neg (not_not_intro (Or.inl hcomm))]
    rw [hrp]
    dsimp only
    have hany0 := refund_any_unrevealed hand hand.pot seats
    rw [hrp] at hany0
    have hseatsany : (seats.any fun s => contesting hand s && !s.cards_revealed) = false := by
      rw [List.any_eq_false]
      intro s hsm hcon
      have hcs := (Bool.and_eq_true _ _).mp hcon
      rw [hrev s hsm hcs.1] at hcs
      simpa using hcs.2
    have hany : (seats1.any fun s => contesting hand s && !s.cards_revealed) = false :=
      hany0.trans hseatsany
    rw [if_neg (by simp [hany])]
    rw [if_neg (by omega)]
    rw [← hwin]
    rw [if_neg (by omega)]
    rw [← hshare, ← hrem]
  · rw [hshare, hrem, Nat.mul_comm]
    exact Nat.div_add_mod pot1 winners.length
  · have hp1 := (showdown_refund_spec hand hand.pot seats bets min_bet hbets hmin h2 hpot
      hsatR).1
    rw [hrp] at hp1
    exact hp1

/-- Witness for C2 at the concrete tie scenario: pot 101, winners [1, 0],
share 50, remainder 1. -/
theorem showdown_split_and_conservation_witness :
    (showdown_refund handSW handSW.pot [seatSB, seatSA] = (101, [seatSB, seatSA]) ∧
      handSW.phase = GamePhase.Showdown ∧
      1 < handSW.active_count ∧
      ([1, 0] : List Nat) = find_winners
        ((([seatSB, seatSA].filter (contesting handSW))).map fun s =>
          (s.seat_index, seven_cards s (handSW.community_cards.filter (· ≠ 255)))) ∧
      (50 : Nat) = 101 / ([1, 0] : List Nat).length ∧
      (1 : Nat) = 101 % ([1, 0] : List Nat).length ∧
      ([50, 50] : List Nat) =
        (([seatSB, seatSA].filter (contesting handSW))).map (·.total_bet_this_hand)) ∧
    (showdown tableW handSW [seatSB, seatSA] true 0 =
      .ok ({ tableW with status := TableStatus.Waiting, last_ready_time := 0 },
           { handSW with phase := GamePhase.Settled, pot := 0 },
           (distribute_winnings [seatSB, seatSA] [1, 0] 50 1).map
             reset_seat_for_next_hand) ∧
      distribute_winnings [seatSB, seatSA] [1, 0] 50 1 = [seatSB, seatSA].map (fun s =>
        if statusActive s && decide (s.seat_index ∈ ([1, 0] : List Nat)) then
          { s with chips := s.chips +
            (if ([1, 0] : List Nat).head? = some s.seat_index then 50 + 1 else 50) }
        else s) ∧
      50 * ([1, 0] : List Nat).length + 1 = 101 ∧
      101 + (([50, 50] : List Nat).map (fun b => b - 50)).sum = handSW.pot) :=
  ⟨⟨by rfl, by decide, by decide, by decide, by decide, by decide, by decide⟩,
    showdown_split_and_conservation tableW handSW [seatSB, seatSA] 0 101 [seatSB, seatSA]
      [1, 0] 50 1 [50, 50] 50 (by rfl) (by decide) (by decide) (by decide) (by decide)
      (by decide) (by decide) (by decide) (by decide) (by decide) (by decide) (by decide)
      (by decide) (by decide) (by decide) (by decide)⟩

end HiddenHand
